import Mathlib

/-!
# Verification of the graph-builder core (`pkg/graph/graph.go`)

This file gives a shallow embedding of the graph-construction engine of the
repository: the `Graph` builder state (node index, subgraph index, address
index), the per-resource `Add*` operations, and the shared resolution helpers
(`getOrCreateSubscriber`, `getOrCreateReply`, `getOrCreateSink`), translated
from `src/pkg/graph/graph.go`.

Modelling conventions:
* `*dot.Node` pointers are modelled by natural-number identities allocated from
  a counter (`Graph.fresh`); a nil `*dot.Node` is `Option.none`.  The builder
  records every allocation in `nodeNames` (node id, name passed to
  `dot.NewNode`).
* Go maps (`nodes`, `subgraphs`, `dnsToKey`) are association lists with
  overwrite-on-insert semantics (`mapSet`); lookup is first-match.
* `dot.Node.Set` / subgraph attribute writes are recorded in prepend-only
  attribute stores (`nodeAttrs`, `sgAttrs`); the latest write is the first
  match.
* A Go panic (index out of range) is modelled by an `Option` result:
  `AddKnService` returns `none` when it would panic.
* The edge-colour palette `colors` is defined outside `src/`; an edge records
  the raw counter value (`colorIdx`), the source applies
  `colors[edgeCount % len(colors)]` to it.
-/

/-- `strings.ToLower`, modelled as per-character lowering of the code points. -/
def strToLower (s : String) : String :=
  String.mk (s.data.map Char.toLower)

/-- Decimal rendering of a natural number, the `%d` verb of `fmt.Sprintf`
for the non-negative ints that reach it in this file. -/
def natToStr (n : Nat) : String :=
  if h : n < 10 then String.mk [Char.ofNat (48 + n)]
  else natToStr (n / 10) ++ String.mk [Char.ofNat (48 + n % 10)]
decreasing_by
  exact Nat.div_lt_self (by omega) (by omega)

/-- `strings.TrimSuffix`: drop one occurrence of `suf` from the end of `s`
when present, else return `s` unchanged. -/
def trimSuffix (s suf : String) : String :=
  if suf.data.isSuffixOf s.data then
    String.mk (s.data.take (s.data.length - suf.data.length))
  else s

/-- `schema.ParseGroupVersion` as used through `FromAPIVersionAndKind`:
zero slashes means a bare version, one slash splits group/version, anything
else (including the error case) yields empty group and version. -/
def parseGroupVersion (s : String) : String × String :=
  match s.data.splitOn '/' with
  | [v] => ("", String.mk v)
  | [gr, v] => (String.mk gr, String.mk v)
  | _ => ("", "")

/-- A group/version/kind triple (`schema.GroupVersionKind`). -/
structure GVK where
  group : String
  version : String
  kind : String
deriving Repr, DecidableEq

/-- `schema.FromAPIVersionAndKind`. -/
def apiVersionGVK (apiVersion kind : String) : GVK :=
  let gv := parseGroupVersion apiVersion
  { group := gv.1, version := gv.2, kind := kind }

/-- Go-map insertion on an association list: the new binding shadows and
removes any previous binding of the same key, so the list length matches the
Go map length. -/
def mapSet {β : Type} (m : List (String × β)) (k : String) (v : β) :
    List (String × β) :=
  (k, v) :: m.eraseP (fun p => p.1 == k)

/-! ## Canonical keys (`graph.go` bottom section) -/

/-- `key`: lowercase `group/version/kind/name`. -/
def key (group version kind name : String) : String :=
  strToLower (group ++ "/" ++ version ++ "/" ++ kind ++ "/" ++ name)

/-- `gvkKey`. -/
def gvkKey (gvk : GVK) (name : String) : String :=
  strToLower (gvk.group ++ "/" ++ gvk.version ++ "/" ++ gvk.kind ++ "/" ++ name)

/-- `uriKey`. -/
def uriKey (uri : String) : String :=
  strToLower ("uri/" ++ uri)

/-- `refKey`. -/
def refKey (apiVersion kind name : String) : String :=
  strToLower (apiVersion ++ "/" ++ kind ++ "/" ++ name)

/-- `eventingKey`. -/
def eventingKey (kind name : String) : String :=
  key "eventing.knative.dev" "v1alpha1" kind name

/-- `messagingKey`. -/
def messagingKey (kind name : String) : String :=
  key "messaging.knative.dev" "v1alpha1" kind name

/-- `servingKey`. -/
def servingKey (kind name : String) : String :=
  key "serving.knative.dev" "v1beta1" kind name

/-- `channelKey`. -/
def channelKey (name : String) : String := eventingKey "channel" name

/-- `subscriptionKey`. -/
def subscriptionKey (name : String) : String := eventingKey "subscription" name

/-- `brokerKey`. -/
def brokerKey (name : String) : String := eventingKey "broker" name

/-- `triggerKey`. -/
def triggerKey (name : String) : String := eventingKey "trigger" name

/-- `sequenceKey`. -/
def sequenceKey (name : String) : String := messagingKey "sequence" name

/-- `sequenceStepKey`: key from sequence name and step index. -/
def sequenceStepKey (name : String) (step : Nat) : String :=
  messagingKey "sequencestep" (name ++ "-" ++ natToStr step)

/-! ## Domain resource types (the typed objects the builder consumes) -/

/-- `corev1.ObjectReference` (the fields this code reads). -/
structure ObjectReference where
  apiVersion : String
  kind : String
  name : String
deriving Repr, DecidableEq

/-- `GroupVersionKind()` of an object reference. -/
def refGVK (r : ObjectReference) : GVK := apiVersionGVK r.apiVersion r.kind

/-- `eventingv1alpha1.SubscriberSpec` (fields read: `URI`, `Ref`). -/
structure SubscriberSpec where
  uri : Option String
  ref : Option ObjectReference
deriving Repr, DecidableEq

/-- `eventingv1alpha1.ReplyStrategy` (field read: `Channel`, of which only
`Name` is used). -/
structure ReplyStrategy where
  channel : Option ObjectReference
deriving Repr, DecidableEq

/-- `eventingv1alpha1.Channel`: name, type meta, and the rendered URL string
of `Status.Address.GetURL()`. -/
structure Channel where
  name : String
  kind : String
  apiVersion : String
  statusAddress : String
deriving Repr, DecidableEq

/-- `eventingv1alpha1.Subscription` (fields read by `AddSubscription`). -/
structure Subscription where
  name : String
  channel : ObjectReference
  subscriber : Option SubscriberSpec
  reply : Option ReplyStrategy
deriving Repr, DecidableEq

/-- `eventingv1alpha1.Broker` (fields read by `AddBroker`). -/
structure Broker where
  name : String
  statusAddress : String
deriving Repr, DecidableEq

/-- `eventingv1alpha1.Trigger`: `filter = some (src, typ)` models
`Spec.Filter != nil && Spec.Filter.SourceAndType != nil`. -/
structure Trigger where
  name : String
  broker : String
  filter : Option (String × String)
  subscriber : Option SubscriberSpec
deriving Repr, DecidableEq

/-- `duckv1alpha1.SourceType` (type meta, name, `Status.SinkURI`). -/
structure SourceType where
  name : String
  kind : String
  apiVersion : String
  statusSinkURI : Option String
deriving Repr, DecidableEq

/-- A container environment variable. -/
structure EnvVar where
  name : String
  value : String
deriving Repr, DecidableEq

/-- A container (field read: `Env`). -/
structure Container where
  env : List EnvVar
deriving Repr, DecidableEq

/-- `servingv1beta1.Service`: type meta, name and
`Spec.ConfigurationSpec.Template.Spec.Containers`. -/
structure KnService where
  name : String
  kind : String
  apiVersion : String
  containers : List Container
deriving Repr, DecidableEq

/-- `messagingv1alpha1.Sequence`: name, status address URL string, ordered
steps and optional reply reference. -/
structure Sequence where
  name : String
  statusAddress : String
  steps : List SubscriberSpec
  reply : Option ObjectReference
deriving Repr, DecidableEq

/-! ## The builder state -/

/-- A `dot.Edge`: endpoint node ids (`none` is a nil `*dot.Node`), attribute
writes, and the rainbow-colour counter value when `g.newEdge` made it. -/
structure Edge where
  src : Option Nat
  dst : Option Nat
  attrs : List (String × String)
  colorIdx : Option Nat
deriving Repr, DecidableEq

/-- The `Graph` builder: the three indexes of the Go struct plus an explicit
model of the underlying `dot.Graph` document (allocated nodes and subgraphs,
attribute stores, top-level node/subgraph lists, membership pairs, edges). -/
structure Graph where
  fresh : Nat
  sgFresh : Nat
  nodeNames : List (Nat × String)
  nodeAttrs : List (Nat × String × String)
  sgNames : List (Nat × String)
  sgAttrs : List (Nat × String × String)
  graphAttrs : List (String × String)
  nodes : List (String × Nat)
  subgraphs : List (String × Nat)
  dnsToKey : List (String × String)
  topNodes : List Nat
  topSubgraphs : List Nat
  sgNodes : List (Nat × Nat)
  edges : List Edge
  edgeCount : Nat
  rainbowEdge : Bool
deriving Repr, DecidableEq

/-- `New`. -/
def New (ns : String) : Graph :=
  { fresh := 0
    sgFresh := 0
    nodeNames := []
    nodeAttrs := []
    sgNames := []
    sgAttrs := []
    graphAttrs := [("shape", "box"), ("label", "Triggers in " ++ ns),
                   ("rankdir", "LR")]
    nodes := []
    subgraphs := []
    dnsToKey := []
    topNodes := []
    topSubgraphs := []
    sgNodes := []
    edges := []
    edgeCount := 0
    rainbowEdge := true }

/-- `dot.NewNode`: allocate a node identity and record its name. -/
def newNode (g : Graph) (name : String) : Nat × Graph :=
  (g.fresh, { g with fresh := g.fresh + 1,
                     nodeNames := (g.fresh, name) :: g.nodeNames })

/-- `dot.NewSubgraph`. -/
def newSubgraph (g : Graph) (name : String) : Nat × Graph :=
  (g.sgFresh, { g with sgFresh := g.sgFresh + 1,
                       sgNames := (g.sgFresh, name) :: g.sgNames })

/-- `node.Set(k, v)`. -/
def nodeSet (g : Graph) (id : Nat) (k v : String) : Graph :=
  { g with nodeAttrs := (id, k, v) :: g.nodeAttrs }

/-- `subgraph.Set(k, v)`. -/
def sgSet (g : Graph) (id : Nat) (k v : String) : Graph :=
  { g with sgAttrs := (id, k, v) :: g.sgAttrs }

/-- `g.AddNode` on the top-level graph. -/
def gAddNode (g : Graph) (id : Nat) : Graph :=
  { g with topNodes := g.topNodes ++ [id] }

/-- `subgraph.AddNode`. -/
def sgAddNode (g : Graph) (sgId id : Nat) : Graph :=
  { g with sgNodes := g.sgNodes ++ [(sgId, id)] }

/-- `g.AddSubgraph`. -/
def gAddSubgraph (g : Graph) (sgId : Nat) : Graph :=
  { g with topSubgraphs := g.topSubgraphs ++ [sgId] }

/-- `g.AddEdge`. -/
def addEdge (g : Graph) (e : Edge) : Graph :=
  { g with edges := g.edges ++ [e] }

/-- The colour bookkeeping of `g.newEdge`: when rainbow styling is on, stamp
the running counter on the edge and advance it. -/
def newEdgeColor (g : Graph) : Option Nat × Graph :=
  if g.rainbowEdge then (some g.edgeCount, { g with edgeCount := g.edgeCount + 1 })
  else (none, g)

/-- `sg.Name()`. -/
def sgNameOf (g : Graph) (sgId : Nat) : String :=
  (g.sgNames.lookup sgId).getD ""

/-! ## Shared helpers of the builder -/

/-- `setNodeShapeForKind`. -/
def setNodeShapeForKind (g : Graph) (id : Nat) (kind apiVersion : String) :
    Graph :=
  if apiVersion = "serving.knative.dev/v1beta1" ∧ kind = "Service" then
    nodeSet g id "shape" "septagon"
  else g

/-- `sinkDNS`. -/
def sinkDNS (source : SourceType) : String :=
  match source.statusSinkURI with
  | some u => trimSuffix u "/"
  | none => ""

/-- The key/label computation at the top of `getOrCreateSubscriber`: `"?"` for
an absent spec (or one with neither URI nor Ref), the URI key/label for a URI,
the reference key/label for a Ref. -/
def subscriberKeyLabel (subscriber : Option SubscriberSpec) : String × String :=
  match subscriber with
  | none => ("?", "?")
  | some s =>
    match s.uri with
    | some u => (uriKey u, u)
    | none =>
      match s.ref with
      | some r =>
        (refKey r.apiVersion r.kind r.name,
         r.name ++ "\nKind: " ++ r.kind ++ "\n" ++ r.apiVersion)
      | none => ("?", "?")

/-- `getOrCreateSubscriber`: reuse the node registered under the computed key,
else create one, register it under the key and add it to the graph. -/
def getOrCreateSubscriber (g : Graph) (subscriber : Option SubscriberSpec) :
    Nat × Graph :=
  let kl := subscriberKeyLabel subscriber
  match g.nodes.lookup kl.1 with
  | some sub => (sub, g)
  | none =>
    let p := newNode g kl.2
    let g1 :=
      match subscriber with
      | some s =>
        match s.ref with
        | some r => setNodeShapeForKind p.2 p.1 r.kind r.apiVersion
        | none => p.2
      | none => p.2
    let g2 := { g1 with nodes := mapSet g1.nodes kl.1 p.1 }
    (p.1, gAddNode g2 p.1)

/-- `getOrCreateReply`: for a channel-typed reply, return the node registered
under the channel key; on a miss an `"Unknown Channel"` node is constructed
(the allocation is recorded) but, as in the source, the function still returns
nil. -/
def getOrCreateReply (g : Graph) (rep : Option ReplyStrategy) :
    Option Nat × Graph :=
  match rep with
  | some r =>
    match r.channel with
    | some chRef =>
      let ck := channelKey chRef.name
      match g.nodes.lookup ck with
      | some cn => (some cn, g)
      | none => (none, (newNode g ("Unknown Channel " ++ chRef.name)).2)
    | none => (none, g)
  | none => (none, g)

/-- `getOrCreateSink`: strip one trailing slash, look the address up in the
address index.  On a miss an `"UnknownSink"` node is created and added to the
graph, but — as in the source — the function returns `g.nodes[key]` where
`key` kept its zero value `""`; on a hit it returns `g.nodes[key]` for the
indexed key. -/
def getOrCreateSink (g : Graph) (uri : String) : Option Nat × Graph :=
  let u := trimSuffix uri "/"
  match g.dnsToKey.lookup u with
  | none =>
    let p := newNode g ("UnknownSink " ++ u)
    let g1 := gAddNode p.2 p.1
    (g1.nodes.lookup "", g1)
  | some k => (g.nodes.lookup k, g)

/-! ## The per-resource add operations -/

/-- `AddChannel`. -/
def AddChannel (g : Graph) (channel : Channel) : Graph :=
  let ck := channelKey channel.name
  let dns := trimSuffix channel.statusAddress "/"
  let p := newNode g ("Channel " ++ channel.name)
  let g2 := setNodeShapeForKind p.2 p.1 channel.kind channel.apiVersion
  let g3 := nodeSet g2 p.1 "shape" "oval"
  let g4 := nodeSet g3 p.1 "label" "Ingress"
  let g5 := { g4 with nodes := mapSet g4.nodes ck p.1,
                      dnsToKey := mapSet g4.dnsToKey dns ck }
  let q := newSubgraph g5 ("cluster_" ++ natToStr g5.subgraphs.length)
  let g6 := sgSet q.2 q.1 "label" ("Channel " ++ channel.name ++ "\n" ++ dns)
  let g7 := { g6 with subgraphs := mapSet g6.subgraphs ck q.1 }
  let g8 := sgAddNode g7 q.1 p.1
  gAddSubgraph g8 q.1

/-- The cluster-or-top-level placement of `AddSubscription` and `AddTrigger`:
add the node to the subgraph registered under `k` when there is one, else to
the top-level graph. -/
def placeByCluster (g : Graph) (k : String) (id : Nat) : Graph :=
  match g.subgraphs.lookup k with
  | none => gAddNode g id
  | some sgId => sgAddNode g sgId id

/-- `AddSubscription`. -/
def AddSubscription (g : Graph) (subscription : Subscription) : Graph :=
  let sk := subscriptionKey subscription.name
  let p := newNode g ("Subscription " ++ subscription.name)
  let ck := gvkKey (refGVK subscription.channel) subscription.channel.name
  let g2 := placeByCluster p.2 ck p.1
  let g3 := { g2 with nodes := mapSet g2.nodes sk p.1 }
  let q := getOrCreateSubscriber g3 subscription.subscriber
  let g4 := addEdge q.2
    { src := some p.1, dst := some q.1, attrs := [("dir", "both")],
      colorIdx := none }
  match getOrCreateReply g4 subscription.reply with
  | (some rep, g5) =>
    let c := newEdgeColor g5
    addEdge c.2
      { src := some p.1, dst := some rep, attrs := [("dir", "forward")],
        colorIdx := c.1 }
  | (none, g5) => g5

/-- `AddBroker`. -/
def AddBroker (g : Graph) (broker : Broker) : Graph :=
  let bk := brokerKey broker.name
  let dns := trimSuffix broker.statusAddress "/"
  let p := newNode g ("Broker " ++ dns)
  let g2 := nodeSet p.2 p.1 "shape" "oval"
  let g3 := nodeSet g2 p.1 "label" "Ingress"
  let g4 := { g3 with nodes := mapSet g3.nodes bk p.1,
                      dnsToKey := mapSet g3.dnsToKey dns bk }
  let q := newSubgraph g4 ("cluster_" ++ natToStr g4.subgraphs.length)
  let g5 := sgSet q.2 q.1 "label" ("Broker " ++ broker.name ++ "\n" ++ dns)
  let g6 := { g5 with subgraphs := mapSet g5.subgraphs bk q.1 }
  let g7 := sgAddNode g6 q.1 p.1
  gAddSubgraph g7 q.1

/-- `AddSource`: create the source node, then resolve the status sink address
through the address index; the first miss branch creates an `"UnknownSink"`
node with the broker key left at its zero value `""`, the second (inner) miss
branch creates one when the indexed key has no node. -/
def AddSource (g : Graph) (source : SourceType) : Graph :=
  let k := gvkKey (apiVersionGVK source.apiVersion source.kind) source.name
  let p := newNode g ("Source " ++ source.name ++ "\nKind: " ++ source.kind
                      ++ "\n" ++ source.apiVersion)
  let g2 := nodeSet p.2 p.1 "shape" "box"
  let g3 := gAddNode g2 p.1
  let g4 := { g3 with nodes := mapSet g3.nodes k p.1 }
  let sink := sinkDNS source
  if sink = "" then g4
  else
    let r :=
      match g4.dnsToKey.lookup sink with
      | none =>
        let q := newNode g4 ("UnknownSink " ++ sink)
        (q.1, "", gAddNode q.2 q.1)
      | some bk =>
        match g4.nodes.lookup bk with
        | none =>
          let q := newNode g4 ("UnknownSink " ++ sink)
          (q.1, bk, gAddNode q.2 q.1)
        | some bn => (bn, bk, g4)
    let attrs :=
      match r.2.2.subgraphs.lookup r.2.1 with
      | some sgId => [("lhead", sgNameOf r.2.2 sgId)]
      | none => []
    addEdge r.2.2 { src := some p.1, dst := some r.1, attrs := attrs,
                    colorIdx := none }

/-- `AddTrigger`. -/
def AddTrigger (g : Graph) (trigger : Trigger) : Graph :=
  let bk := brokerKey trigger.broker
  let r :=
    match g.nodes.lookup bk with
    | some bn => (bn, g)
    | none =>
      let p := newNode g ("UnknownBroker " ++ trigger.broker)
      let ga := gAddNode p.2 p.1
      (p.1, { ga with nodes := mapSet ga.nodes bk p.1 })
  let q := newNode r.2 ("Trigger " ++ trigger.name)
  let g2 := nodeSet q.2 q.1 "shape" "box"
  let g3 := placeByCluster g2 bk q.1
  let g4 := { g3 with nodes := mapSet g3.nodes (triggerKey trigger.name) q.1 }
  let g5 :=
    match trigger.filter with
    | some st =>
      nodeSet g4 q.1 "label"
        ("Trigger " ++ trigger.name ++ "\n" ++ "Source:" ++ st.1
         ++ "\nType:" ++ st.2)
    | none => g4
  let s := getOrCreateSubscriber g5 trigger.subscriber
  addEdge s.2
    { src := some q.1, dst := some s.1, attrs := [("dir", "both")],
      colorIdx := none }

/-- One iteration of the environment loop of `AddKnService`: `SINK` and
`TARGET` entries resolve the value through sink resolution and add an edge
from the service node to whatever it returned. -/
def knEnvStep (svcId : Nat) (g : Graph) (env : EnvVar) : Graph :=
  if env.name = "SINK" ∨ env.name = "TARGET" then
    let r := getOrCreateSink g env.value
    addEdge r.2 { src := some svcId, dst := r.1, attrs := [], colorIdx := none }
  else g

/-- `AddKnService`: reuse or create the service node, then walk the first
container's environment.  Indexing `Containers[0]` on an empty container list
panics in the source; the panic is modelled by `none`. -/
def AddKnService (g : Graph) (service : KnService) : Option Graph :=
  let k := servingKey service.kind service.name
  let r :=
    match g.nodes.lookup k with
    | some svc => (svc, g)
    | none =>
      let label := service.name ++ "\nKind: " ++ service.kind ++ "\n"
                   ++ service.apiVersion
      let p := newNode g label
      let ga := setNodeShapeForKind p.2 p.1 service.kind service.apiVersion
      let gb := nodeSet ga p.1 "shape" "septagon"
      let gc := { gb with nodes := mapSet gb.nodes k p.1 }
      (p.1, gAddNode gc p.1)
  match service.containers with
  | [] => none
  | c :: _ => some (c.env.foldl (knEnvStep r.1) r.2)

/-- The step loop of `AddSequence`: for each step, create and register the
step node, add it to the sequence cluster, link it to its subscriber, and add
the plain chain edge from the previous node. -/
def addSeqSteps (seqName : String) (sgId : Nat) :
    Graph → Nat → Nat → List SubscriberSpec → Nat × Graph
  | g, prev, _, [] => (prev, g)
  | g, prev, num, step :: rest =>
    let sk := sequenceStepKey seqName num
    let p := newNode g sk
    let g2 := nodeSet p.2 p.1 "label" ("Step " ++ natToStr num)
    let g3 := nodeSet g2 p.1 "shape" "box"
    let g4 := sgAddNode g3 sgId p.1
    let g5 := { g4 with nodes := mapSet g4.nodes sk p.1 }
    let q := getOrCreateSubscriber g5 (some step)
    let g6 := addEdge q.2
      { src := some p.1, dst := some q.1, attrs := [("dir", "both")],
        colorIdx := none }
    let g7 := addEdge g6
      { src := some prev, dst := some p.1, attrs := [], colorIdx := none }
    addSeqSteps seqName sgId g7 p.1 (num + 1) rest

/-- `AddSequence`. -/
def AddSequence (g : Graph) (seq : Sequence) : Graph :=
  let k := sequenceKey seq.name
  let dns := trimSuffix seq.statusAddress "/"
  let q := newSubgraph g ("cluster_" ++ natToStr g.subgraphs.length)
  let g2 := sgSet q.2 q.1 "label" ("Sequence " ++ seq.name ++ "\n" ++ dns)
  let g3 := { g2 with dnsToKey := mapSet g2.dnsToKey dns k }
  let p := newNode g3 ("Sequence " ++ dns)
  let g4 := nodeSet p.2 p.1 "label" "Start"
  let g5 := { g4 with nodes := mapSet g4.nodes k p.1 }
  let g6 := sgAddNode g5 q.1 p.1
  let r := addSeqSteps seq.name q.1 g6 p.1 0 seq.steps
  let g7 :=
    match seq.reply with
    | some rep =>
      let w := newNode r.2 ("Reply " ++ dns)
      let ga := nodeSet w.2 w.1 "label" "Reply"
      let gb := sgAddNode ga q.1 w.1
      let gc := addEdge gb
        { src := some r.1, dst := some w.1, attrs := [], colorIdx := none }
      let rk := gvkKey (refGVK rep) rep.name
      match gc.nodes.lookup rk with
      | some rn =>
        addEdge gc { src := some w.1, dst := some rn, attrs := [],
                     colorIdx := none }
      | none => gc
    | none => r.2
  let g8 := { g7 with subgraphs := mapSet g7.subgraphs k q.1 }
  gAddSubgraph g8 q.1

/-! ## Build passes and global invariants -/

/-- One "add resource" request of a build pass. -/
inductive Op where
  | channel (c : Channel)
  | subscription (s : Subscription)
  | broker (b : Broker)
  | source (s : SourceType)
  | trigger (t : Trigger)
  | knService (s : KnService)
  | sequence (q : Sequence)
deriving Repr

/-- Apply one add operation.  A `knService` call that would panic contributes
no completed state, so the state is kept unchanged. -/
def applyOp (g : Graph) : Op → Graph
  | .channel c => AddChannel g c
  | .subscription s => AddSubscription g s
  | .broker b => AddBroker g b
  | .source s => AddSource g s
  | .trigger t => AddTrigger g t
  | .knService s => (AddKnService g s).getD g
  | .sequence q => AddSequence g q

/-- The builder states reachable in one build pass: `New` followed by any
sequence of add operations. -/
inductive Reachable : Graph → Prop
  | new (ns : String) : Reachable (New ns)
  | step {g : Graph} (h : Reachable g) (op : Op) : Reachable (applyOp g op)

/-- All node identities mentioned by the graph document are below `n`. -/
def Below (g : Graph) (n : Nat) : Prop :=
  (∀ p ∈ g.nodeNames, p.1 < n) ∧
  (∀ i ∈ g.topNodes, i < n) ∧
  (∀ p ∈ g.sgNodes, p.2 < n) ∧
  (∀ p ∈ g.nodes, p.2 < n) ∧
  (∀ e ∈ g.edges, (∀ i, e.src = some i → i < n) ∧ (∀ i, e.dst = some i → i < n))

/-- Well-formed builder state: every mentioned node identity was allocated
before the current allocation counter. -/
def WF (g : Graph) : Prop := Below g g.fresh

/-- The address-index invariant: every key stored in `dnsToKey` has a node
registered under it. -/
def AddrInv (g : Graph) : Prop :=
  ∀ p ∈ g.dnsToKey, (g.nodes.lookup p.2).isSome

/-- The guard of the secondary fallback branch of `AddSource`: the sink is
non-empty, the address index maps it to a key, and no node is registered under
that key. -/
def sourceFallbackTaken (g : Graph) (source : SourceType) : Bool :=
  let sink := sinkDNS source
  if sink = "" then false
  else
    match g.dnsToKey.lookup sink with
    | none => false
    | some bk => (g.nodes.lookup bk).isNone

/-- A node identity is connected to the graph document: it appears at top
level, in a cluster, in the node index, or as an edge endpoint. -/
def idConnected (g : Graph) (i : Nat) : Prop :=
  i ∈ g.topNodes ∨ (∃ p ∈ g.sgNodes, p.2 = i) ∨ (∃ p ∈ g.nodes, p.2 = i) ∨
  (∃ e ∈ g.edges, e.src = some i ∨ e.dst = some i)

/-! ## Map and string infrastructure lemmas -/

theorem lookup_eraseP {β : Type} (m : List (String × β)) (k k' : String)
    (h : k' ≠ k) :
    (m.eraseP (fun p => p.1 == k)).lookup k' = m.lookup k' := by
  induction m with
  | nil => rfl
  | cons a m ih =>
    obtain ⟨a1, a2⟩ := a
    by_cases hk : a1 = k
    · subst hk
      have hb : (k' == a1) = false := by simp [h]
      simp [List.eraseP_cons, List.lookup, hb]
    · have hb : (a1 == k) = false := by simp [hk]
      simp only [List.eraseP_cons, hb, cond_false, List.lookup]
      split <;> simp_all

theorem lookup_mapSet {β : Type} (m : List (String × β)) (k k' : String)
    (v : β) :
    (mapSet m k v).lookup k' = if k' = k then some v else m.lookup k' := by
  unfold mapSet
  by_cases h : k' = k
  · simp [List.lookup, h]
  · have hb : (k' == k) = false := by simp [h]
    simp only [List.lookup, hb, if_neg h]
    exact lookup_eraseP m k k' h

theorem lookup_mapSet_self {β : Type} (m : List (String × β)) (k : String)
    (v : β) : (mapSet m k v).lookup k = some v := by
  simp [lookup_mapSet]

theorem lookup_mapSet_ne {β : Type} (m : List (String × β)) (k k' : String)
    (v : β) (h : k' ≠ k) : (mapSet m k v).lookup k' = m.lookup k' := by
  simp [lookup_mapSet, h]

theorem mem_mapSet {β : Type} {m : List (String × β)} {k : String} {v : β}
    {p : String × β} (h : p ∈ mapSet m k v) : p = (k, v) ∨ p ∈ m := by
  unfold mapSet at h
  rcases List.mem_cons.1 h with h | h
  · exact Or.inl h
  · exact Or.inr (List.mem_of_mem_eraseP h)

theorem lookup_isSome_mapSet {β : Type} (m : List (String × β))
    (k k' : String) (v : β) (h : (m.lookup k').isSome) :
    ((mapSet m k v).lookup k').isSome := by
  rw [lookup_mapSet]
  split <;> simp_all

theorem strToLower_append (a b : String) :
    strToLower (a ++ b) = strToLower a ++ strToLower b := by
  apply String.ext
  simp [strToLower, String.data_append]

theorem str_append_cancel_left {a b c : String} (h : a ++ b = a ++ c) :
    b = c := by
  apply String.ext
  have hd := congrArg String.data h
  rw [String.data_append, String.data_append] at hd
  exact List.append_cancel_left hd

/-- Two strings with concrete prefixes that differ at a common valid position
are different, whatever the suffixes. -/
theorem append_ne_at (p q : List Char) (i : Nat) (hip : i < p.length)
    (hiq : i < q.length) (hne : p[i]? ≠ q[i]?) :
    ∀ x y : List Char, p ++ x ≠ q ++ y := by
  intro x y h
  have h1 : (p ++ x)[i]? = p[i]? := List.getElem?_append_left hip
  have h2 : (q ++ y)[i]? = q[i]? := List.getElem?_append_left hiq
  rw [h] at h1
  rw [h2] at h1
  exact hne h1.symm

theorem string_append_ne (p q : String) (i : Nat) (hip : i < p.data.length)
    (hiq : i < q.data.length) (hne : p.data[i]? ≠ q.data[i]?) :
    ∀ x y : String, p ++ x ≠ q ++ y := by
  intro x y h
  have hd := congrArg String.data h
  rw [String.data_append, String.data_append] at hd
  exact append_ne_at p.data q.data i hip hiq hne x.data y.data hd

/-! Normal forms for the canonical keys: concrete lowercase prefix followed by
the lowered name. -/

theorem key_nf (group version kind name : String) :
    key group version kind name =
      strToLower (group ++ "/" ++ version ++ "/" ++ kind ++ "/")
        ++ strToLower name := by
  unfold key
  exact strToLower_append _ _

theorem channelKey_nf (n : String) :
    channelKey n = "eventing.knative.dev/v1alpha1/channel/" ++ strToLower n := by
  unfold channelKey eventingKey
  rw [key_nf]
  norm_num [show strToLower ("eventing.knative.dev" ++ "/" ++ "v1alpha1" ++ "/" ++ "channel" ++ "/") = "eventing.knative.dev/v1alpha1/channel/" by decide]

theorem subscriptionKey_nf (n : String) :
    subscriptionKey n =
      "eventing.knative.dev/v1alpha1/subscription/" ++ strToLower n := by
  unfold subscriptionKey eventingKey
  rw [key_nf]
  norm_num [show strToLower ("eventing.knative.dev" ++ "/" ++ "v1alpha1" ++ "/" ++ "subscription" ++ "/") = "eventing.knative.dev/v1alpha1/subscription/" by decide]

theorem brokerKey_nf (n : String) :
    brokerKey n = "eventing.knative.dev/v1alpha1/broker/" ++ strToLower n := by
  unfold brokerKey eventingKey
  rw [key_nf]
  norm_num [show strToLower ("eventing.knative.dev" ++ "/" ++ "v1alpha1" ++ "/" ++ "broker" ++ "/") = "eventing.knative.dev/v1alpha1/broker/" by decide]

theorem triggerKey_nf (n : String) :
    triggerKey n = "eventing.knative.dev/v1alpha1/trigger/" ++ strToLower n := by
  unfold triggerKey eventingKey
  rw [key_nf]
  norm_num [show strToLower ("eventing.knative.dev" ++ "/" ++ "v1alpha1" ++ "/" ++ "trigger" ++ "/") = "eventing.knative.dev/v1alpha1/trigger/" by decide]

theorem sequenceStepKey_split (name : String) (i : Nat) :
    sequenceStepKey name i =
      (strToLower ("messaging.knative.dev" ++ "/" ++ "v1alpha1" ++ "/"
          ++ "sequencestep" ++ "/") ++ strToLower (name ++ "-"))
        ++ strToLower (natToStr i) := by
  unfold sequenceStepKey messagingKey
  rw [key_nf]
  rw [show name ++ "-" ++ natToStr i = (name ++ "-") ++ natToStr i from rfl]
  rw [show strToLower ((name ++ "-") ++ natToStr i)
        = strToLower (name ++ "-") ++ strToLower (natToStr i)
      from strToLower_append _ _]
  exact (String.append_assoc _ _ _).symm

theorem subscriptionKey_ne_channelKey (a b : String) :
    subscriptionKey a ≠ channelKey b := by
  rw [subscriptionKey_nf, channelKey_nf]
  exact string_append_ne _ _ 30 (by decide) (by decide) (by decide) _ _

theorem triggerKey_ne_brokerKey (a b : String) :
    triggerKey a ≠ brokerKey b := by
  rw [triggerKey_nf, brokerKey_nf]
  exact string_append_ne _ _ 30 (by decide) (by decide) (by decide) _ _

/-! Decimal strings: parsing inverse, injectivity, and stability under
lowercasing. -/

/-- Read a digit list back as a number. -/
def parseDec (l : List Char) : Nat :=
  l.foldl (fun a c => a * 10 + (c.toNat - 48)) 0

theorem parseDec_append_digit (l : List Char) (c : Char) :
    parseDec (l ++ [c]) = parseDec l * 10 + (c.toNat - 48) := by
  unfold parseDec
  rw [List.foldl_append]
  rfl

theorem toNat_digit_char (k : Nat) (h : k < 10) :
    (Char.ofNat (48 + k)).toNat = 48 + k := by
  interval_cases k <;> decide

theorem parseDec_natToStr (n : Nat) : parseDec (natToStr n).data = n := by
  induction n using Nat.strong_induction_on with
  | _ n ih =>
    unfold natToStr
    by_cases h : n < 10
    · simp only [h, dif_pos]
      show parseDec [Char.ofNat (48 + n)] = n
      unfold parseDec
      simp [List.foldl, toNat_digit_char n h]
    · simp only [h, dif_neg, not_false_iff]
      rw [String.data_append]
      show parseDec ((natToStr (n / 10)).data ++ [Char.ofNat (48 + n % 10)]) = n
      rw [parseDec_append_digit]
      rw [ih (n / 10) (Nat.div_lt_self (by omega) (by omega))]
      rw [toNat_digit_char (n % 10) (Nat.mod_lt _ (by omega))]
      omega

theorem natToStr_inj {m n : Nat} (h : natToStr m = natToStr n) : m = n := by
  have := congrArg (fun s => parseDec s.data) h
  simpa [parseDec_natToStr] using this

theorem toLower_digit (k : Nat) (h : k < 10) :
    Char.toLower (Char.ofNat (48 + k)) = Char.ofNat (48 + k) := by
  interval_cases k <;> decide

theorem strToLower_natToStr (n : Nat) :
    strToLower (natToStr n) = natToStr n := by
  induction n using Nat.strong_induction_on with
  | _ n ih =>
    unfold natToStr
    by_cases h : n < 10
    · simp only [h, dif_pos]
      apply String.ext
      show List.map Char.toLower [Char.ofNat (48 + n)] = [Char.ofNat (48 + n)]
      simp [toLower_digit n h]
    · simp only [h, dif_neg, not_false_iff]
      rw [strToLower_append]
      rw [ih (n / 10) (Nat.div_lt_self (by omega) (by omega))]
      congr 1
      apply String.ext
      show List.map Char.toLower [Char.ofNat (48 + n % 10)]
            = [Char.ofNat (48 + n % 10)]
      simp [toLower_digit (n % 10) (Nat.mod_lt _ (by omega))]

theorem sequenceStepKey_inj (name : String) {i j : Nat}
    (h : sequenceStepKey name i = sequenceStepKey name j) : i = j := by
  rw [sequenceStepKey_split, sequenceStepKey_split] at h
  have h2 := str_append_cancel_left h
  rw [strToLower_natToStr, strToLower_natToStr] at h2
  exact natToStr_inj h2

/-! ## Frame and case lemmas for the resolution helpers -/

theorem lookup_mem {β : Type} {m : List (String × β)} {k : String} {v : β}
    (h : m.lookup k = some v) : (k, v) ∈ m := by
  induction m with
  | nil => simp [List.lookup] at h
  | cons a m ih =>
    obtain ⟨a1, a2⟩ := a
    simp only [List.lookup] at h
    by_cases hk : k = a1
    · subst hk
      simp at h
      simp [h]
    · have hb : (k == a1) = false := by simp [hk]
      rw [hb] at h
      exact List.mem_cons_of_mem _ (ih h)

theorem below_mono {g : Graph} {n m : Nat} (h : Below g n) (hnm : n ≤ m) :
    Below g m := by
  obtain ⟨h1, h2, h3, h4, h5⟩ := h
  refine ⟨fun p hp => lt_of_lt_of_le (h1 p hp) hnm,
          fun i hi => lt_of_lt_of_le (h2 i hi) hnm,
          fun p hp => lt_of_lt_of_le (h3 p hp) hnm,
          fun p hp => lt_of_lt_of_le (h4 p hp) hnm,
          fun e he => ⟨fun i hi => lt_of_lt_of_le ((h5 e he).1 i hi) hnm,
                       fun i hi => lt_of_lt_of_le ((h5 e he).2 i hi) hnm⟩⟩

theorem below_addEdge {g : Graph} {n : Nat} {e : Edge} (h : Below g n)
    (hsrc : ∀ i, e.src = some i → i < n)
    (hdst : ∀ i, e.dst = some i → i < n) : Below (addEdge g e) n := by
  obtain ⟨h1, h2, h3, h4, h5⟩ := h
  refine ⟨h1, h2, h3, h4, ?_⟩
  intro x hx
  rcases List.mem_append.1 hx with hx | hx
  · exact h5 x hx
  · simp at hx
    subst hx
    exact ⟨hsrc, hdst⟩

theorem gocs_hit {g : Graph} {sub : Option SubscriberSpec} {id : Nat}
    (h : g.nodes.lookup (subscriberKeyLabel sub).1 = some id) :
    getOrCreateSubscriber g sub = (id, g) := by
  unfold getOrCreateSubscriber
  simp [h]

theorem gocs_miss_fields {g : Graph} {sub : Option SubscriberSpec}
    (h : g.nodes.lookup (subscriberKeyLabel sub).1 = none) :
    (getOrCreateSubscriber g sub).1 = g.fresh ∧
    (getOrCreateSubscriber g sub).2.fresh = g.fresh + 1 ∧
    (getOrCreateSubscriber g sub).2.nodeNames
      = (g.fresh, (subscriberKeyLabel sub).2) :: g.nodeNames ∧
    (getOrCreateSubscriber g sub).2.nodes
      = mapSet g.nodes (subscriberKeyLabel sub).1 g.fresh ∧
    (getOrCreateSubscriber g sub).2.topNodes = g.topNodes ++ [g.fresh] ∧
    (getOrCreateSubscriber g sub).2.sgNodes = g.sgNodes ∧
    (getOrCreateSubscriber g sub).2.subgraphs = g.subgraphs ∧
    (getOrCreateSubscriber g sub).2.dnsToKey = g.dnsToKey ∧
    (getOrCreateSubscriber g sub).2.edges = g.edges ∧
    (getOrCreateSubscriber g sub).2.edgeCount = g.edgeCount ∧
    (getOrCreateSubscriber g sub).2.rainbowEdge = g.rainbowEdge ∧
    (getOrCreateSubscriber g sub).2.sgFresh = g.sgFresh ∧
    (getOrCreateSubscriber g sub).2.topSubgraphs = g.topSubgraphs := by
  rcases sub with _ | s
  · simp [getOrCreateSubscriber, h, newNode, gAddNode]
  · rcases hr : s.ref with _ | r <;>
      simp [getOrCreateSubscriber, h, hr, newNode, gAddNode,
            setNodeShapeForKind, nodeSet, apply_ite]

theorem gocs_frame (g : Graph) (sub : Option SubscriberSpec) :
    g.fresh ≤ (getOrCreateSubscriber g sub).2.fresh ∧
    (getOrCreateSubscriber g sub).2.edges = g.edges ∧
    (getOrCreateSubscriber g sub).2.sgNodes = g.sgNodes ∧
    (getOrCreateSubscriber g sub).2.subgraphs = g.subgraphs ∧
    (getOrCreateSubscriber g sub).2.dnsToKey = g.dnsToKey ∧
    (getOrCreateSubscriber g sub).2.sgFresh = g.sgFresh ∧
    (getOrCreateSubscriber g sub).2.topSubgraphs = g.topSubgraphs ∧
    (getOrCreateSubscriber g sub).2.edgeCount = g.edgeCount ∧
    (getOrCreateSubscriber g sub).2.rainbowEdge = g.rainbowEdge ∧
    (∀ k v, g.nodes.lookup k = some v →
      (getOrCreateSubscriber g sub).2.nodes.lookup k = some v) ∧
    (∀ k, (g.nodes.lookup k).isSome →
      ((getOrCreateSubscriber g sub).2.nodes.lookup k).isSome) := by
  cases h : g.nodes.lookup (subscriberKeyLabel sub).1 with
  | none =>
    obtain ⟨h1, h2, h3, h4, h5, h6, h7, h8, h9, h10, h11, h12, h13⟩ :=
      gocs_miss_fields h
    refine ⟨by omega, h9, h6, h7, h8, h12, h13, h10, h11, ?_, ?_⟩
    · intro k v hk
      rw [h4, lookup_mapSet]
      split
      · rename_i he
        rw [he] at hk
        rw [hk] at h
        exact absurd h (by simp)
      · exact hk
    · intro k hk
      rw [h4]
      exact lookup_isSome_mapSet _ _ _ _ hk
  | some id =>
    rw [gocs_hit h]
    simp

theorem gocs_wf {g : Graph} (sub : Option SubscriberSpec) (hw : WF g) :
    WF (getOrCreateSubscriber g sub).2 ∧
    (getOrCreateSubscriber g sub).1 < (getOrCreateSubscriber g sub).2.fresh := by
  cases h : g.nodes.lookup (subscriberKeyLabel sub).1 with
  | none =>
    obtain ⟨h1, h2, h3, h4, h5, h6, h7, h8, h9, h10, h11, h12, h13⟩ :=
      gocs_miss_fields h
    obtain ⟨b1, b2, b3, b4, b5⟩ := hw
    constructor
    · unfold WF Below
      rw [h2, h3, h4, h5, h6, h9]
      refine ⟨?_, ?_, ?_, ?_, ?_⟩
      · intro p hp
        rcases List.mem_cons.1 hp with hp | hp
        · simp [hp]
        · exact lt_of_lt_of_le (b1 p hp) (by omega)
      · intro i hi
        rcases List.mem_append.1 hi with hi | hi
        · exact lt_of_lt_of_le (b2 i hi) (by omega)
        · simp at hi
          omega
      · intro p hp
        exact lt_of_lt_of_le (b3 p hp) (by omega)
      · intro p hp
        rcases mem_mapSet hp with hp | hp
        · simp [hp]
        · exact lt_of_lt_of_le (b4 p hp) (by omega)
      · intro e he
        exact ⟨fun i hi => lt_of_lt_of_le ((b5 e he).1 i hi) (by omega),
               fun i hi => lt_of_lt_of_le ((b5 e he).2 i hi) (by omega)⟩
    · rw [h1, h2]
      omega
  | some id =>
    rw [gocs_hit h]
    refine ⟨hw, ?_⟩
    exact hw.2.2.2.1 _ (lookup_mem h)

theorem gorep_hit {g : Graph} {r : ReplyStrategy} {ch : ObjectReference}
    {id : Nat} (h1 : r.channel = some ch)
    (h2 : g.nodes.lookup (channelKey ch.name) = some id) :
    getOrCreateReply g (some r) = (some id, g) := by
  unfold getOrCreateReply
  simp [h1, h2]

theorem gorep_miss {g : Graph} {r : ReplyStrategy} {ch : ObjectReference}
    (h1 : r.channel = some ch)
    (h2 : g.nodes.lookup (channelKey ch.name) = none) :
    getOrCreateReply g (some r) =
      (none, { g with fresh := g.fresh + 1,
                      nodeNames := (g.fresh, "Unknown Channel " ++ ch.name)
                                     :: g.nodeNames }) := by
  unfold getOrCreateReply
  simp [h1, h2, newNode]

theorem gosink_miss {g : Graph} {uri : String}
    (h : g.dnsToKey.lookup (trimSuffix uri "/") = none) :
    getOrCreateSink g uri =
      (g.nodes.lookup "",
       { g with fresh := g.fresh + 1,
                nodeNames := (g.fresh, "UnknownSink " ++ trimSuffix uri "/")
                               :: g.nodeNames,
                topNodes := g.topNodes ++ [g.fresh] }) := by
  unfold getOrCreateSink
  simp [h, newNode, gAddNode]

theorem gosink_hit {g : Graph} {uri : String} {k : String}
    (h : g.dnsToKey.lookup (trimSuffix uri "/") = some k) :
    getOrCreateSink g uri = (g.nodes.lookup k, g) := by
  unfold getOrCreateSink
  simp [h]

/-! ## Field computation lemmas for the add operations -/

theorem AddChannel_fields (g : Graph) (c : Channel) :
    (AddChannel g c).fresh = g.fresh + 1 ∧
    (AddChannel g c).sgFresh = g.sgFresh + 1 ∧
    (AddChannel g c).nodeNames = (g.fresh, "Channel " ++ c.name) :: g.nodeNames ∧
    (AddChannel g c).nodes = mapSet g.nodes (channelKey c.name) g.fresh ∧
    (AddChannel g c).subgraphs = mapSet g.subgraphs (channelKey c.name) g.sgFresh ∧
    (AddChannel g c).dnsToKey
      = mapSet g.dnsToKey (trimSuffix c.statusAddress "/") (channelKey c.name) ∧
    (AddChannel g c).topNodes = g.topNodes ∧
    (AddChannel g c).sgNodes = g.sgNodes ++ [(g.sgFresh, g.fresh)] ∧
    (AddChannel g c).topSubgraphs = g.topSubgraphs ++ [g.sgFresh] ∧
    (AddChannel g c).edges = g.edges ∧
    (AddChannel g c).edgeCount = g.edgeCount ∧
    (AddChannel g c).rainbowEdge = g.rainbowEdge := by
  simp [AddChannel, setNodeShapeForKind, newNode, newSubgraph, nodeSet, sgSet,
        sgAddNode, gAddSubgraph, apply_ite]

theorem AddBroker_fields (g : Graph) (b : Broker) :
    (AddBroker g b).fresh = g.fresh + 1 ∧
    (AddBroker g b).sgFresh = g.sgFresh + 1 ∧
    (AddBroker g b).nodeNames
      = (g.fresh, "Broker " ++ trimSuffix b.statusAddress "/") :: g.nodeNames ∧
    (AddBroker g b).nodes = mapSet g.nodes (brokerKey b.name) g.fresh ∧
    (AddBroker g b).subgraphs = mapSet g.subgraphs (brokerKey b.name) g.sgFresh ∧
    (AddBroker g b).dnsToKey
      = mapSet g.dnsToKey (trimSuffix b.statusAddress "/") (brokerKey b.name) ∧
    (AddBroker g b).topNodes = g.topNodes ∧
    (AddBroker g b).sgNodes = g.sgNodes ++ [(g.sgFresh, g.fresh)] ∧
    (AddBroker g b).topSubgraphs = g.topSubgraphs ++ [g.sgFresh] ∧
    (AddBroker g b).edges = g.edges ∧
    (AddBroker g b).edgeCount = g.edgeCount ∧
    (AddBroker g b).rainbowEdge = g.rainbowEdge := by
  simp [AddBroker, newNode, newSubgraph, nodeSet, sgSet, sgAddNode,
        gAddSubgraph]

theorem AddSource_fields_nosink (g : Graph) (s : SourceType)
    (hs : sinkDNS s = "") :
    (AddSource g s).fresh = g.fresh + 1 ∧
    (AddSource g s).nodeNames
      = (g.fresh, "Source " ++ s.name ++ "\nKind: " ++ s.kind ++ "\n"
          ++ s.apiVersion) :: g.nodeNames ∧
    (AddSource g s).nodes
      = mapSet g.nodes (gvkKey (apiVersionGVK s.apiVersion s.kind) s.name)
          g.fresh ∧
    (AddSource g s).topNodes = g.topNodes ++ [g.fresh] ∧
    (AddSource g s).sgNodes = g.sgNodes ∧
    (AddSource g s).subgraphs = g.subgraphs ∧
    (AddSource g s).dnsToKey = g.dnsToKey ∧
    (AddSource g s).edges = g.edges ∧
    (AddSource g s).sgFresh = g.sgFresh ∧
    (AddSource g s).topSubgraphs = g.topSubgraphs ∧
    (AddSource g s).edgeCount = g.edgeCount ∧
    (AddSource g s).rainbowEdge = g.rainbowEdge := by
  simp [AddSource, hs, newNode, nodeSet, gAddNode]

theorem AddSource_fields_hit (g : Graph) (s : SourceType) (bk : String)
    (bn : Nat) (hs : sinkDNS s ≠ "")
    (hdns : g.dnsToKey.lookup (sinkDNS s) = some bk)
    (hbn : (mapSet g.nodes (gvkKey (apiVersionGVK s.apiVersion s.kind) s.name)
             g.fresh).lookup bk = some bn) :
    (AddSource g s).fresh = g.fresh + 1 ∧
    (AddSource g s).nodeNames
      = (g.fresh, "Source " ++ s.name ++ "\nKind: " ++ s.kind ++ "\n"
          ++ s.apiVersion) :: g.nodeNames ∧
    (AddSource g s).nodes
      = mapSet g.nodes (gvkKey (apiVersionGVK s.apiVersion s.kind) s.name)
          g.fresh ∧
    (AddSource g s).topNodes = g.topNodes ++ [g.fresh] ∧
    (AddSource g s).sgNodes = g.sgNodes ∧
    (AddSource g s).subgraphs = g.subgraphs ∧
    (AddSource g s).dnsToKey = g.dnsToKey ∧
    (AddSource g s).edges = g.edges ++
      [{ src := some g.fresh, dst := some bn,
         attrs := match g.subgraphs.lookup bk with
                  | some sgid => [("lhead", (g.sgNames.lookup sgid).getD "")]
                  | none => []
         colorIdx := none }] ∧
    (AddSource g s).sgFresh = g.sgFresh ∧
    (AddSource g s).topSubgraphs = g.topSubgraphs ∧
    (AddSource g s).edgeCount = g.edgeCount ∧
    (AddSource g s).rainbowEdge = g.rainbowEdge := by
  simp only [AddSource, newNode, nodeSet, gAddNode, addEdge, sgNameOf]
  simp only [hdns, hbn, if_neg hs]
  cases hsg : g.subgraphs.lookup bk <;> simp

theorem AddSource_fields_fallback (g : Graph) (s : SourceType) (bk : String)
    (hs : sinkDNS s ≠ "")
    (hdns : g.dnsToKey.lookup (sinkDNS s) = some bk)
    (hbn : (mapSet g.nodes (gvkKey (apiVersionGVK s.apiVersion s.kind) s.name)
             g.fresh).lookup bk = none) :
    (AddSource g s).fresh = g.fresh + 2 ∧
    (AddSource g s).nodeNames
      = (g.fresh + 1, "UnknownSink " ++ sinkDNS s) ::
        (g.fresh, "Source " ++ s.name ++ "\nKind: " ++ s.kind ++ "\n"
          ++ s.apiVersion) :: g.nodeNames ∧
    (AddSource g s).nodes
      = mapSet g.nodes (gvkKey (apiVersionGVK s.apiVersion s.kind) s.name)
          g.fresh ∧
    (AddSource g s).topNodes = (g.topNodes ++ [g.fresh]) ++ [g.fresh + 1] ∧
    (AddSource g s).sgNodes = g.sgNodes ∧
    (AddSource g s).subgraphs = g.subgraphs ∧
    (AddSource g s).dnsToKey = g.dnsToKey ∧
    (AddSource g s).edges = g.edges ++
      [{ src := some g.fresh, dst := some (g.fresh + 1),
         attrs := match g.subgraphs.lookup bk with
                  | some sgid => [("lhead", (g.sgNames.lookup sgid).getD "")]
                  | none => []
         colorIdx := none }] ∧
    (AddSource g s).sgFresh = g.sgFresh ∧
    (AddSource g s).topSubgraphs = g.topSubgraphs ∧
    (AddSource g s).edgeCount = g.edgeCount ∧
    (AddSource g s).rainbowEdge = g.rainbowEdge := by
  simp only [AddSource, newNode, nodeSet, gAddNode, addEdge, sgNameOf]
  simp only [hdns, hbn, if_neg hs]
  cases hsg : g.subgraphs.lookup bk <;> simp

theorem AddSource_fields_miss (g : Graph) (s : SourceType)
    (hs : sinkDNS s ≠ "")
    (hdns : g.dnsToKey.lookup (sinkDNS s) = none) :
    (AddSource g s).fresh = g.fresh + 2 ∧
    (AddSource g s).nodeNames
      = (g.fresh + 1, "UnknownSink " ++ sinkDNS s) ::
        (g.fresh, "Source " ++ s.name ++ "\nKind: " ++ s.kind ++ "\n"
          ++ s.apiVersion) :: g.nodeNames ∧
    (AddSource g s).nodes
      = mapSet g.nodes (gvkKey (apiVersionGVK s.apiVersion s.kind) s.name)
          g.fresh ∧
    (AddSource g s).topNodes = (g.topNodes ++ [g.fresh]) ++ [g.fresh + 1] ∧
    (AddSource g s).sgNodes = g.sgNodes ∧
    (AddSource g s).subgraphs = g.subgraphs ∧
    (AddSource g s).dnsToKey = g.dnsToKey ∧
    (AddSource g s).edges = g.edges ++
      [{ src := some g.fresh, dst := some (g.fresh + 1),
         attrs := match g.subgraphs.lookup "" with
                  | some sgid => [("lhead", (g.sgNames.lookup sgid).getD "")]
                  | none => []
         colorIdx := none }] ∧
    (AddSource g s).sgFresh = g.sgFresh ∧
    (AddSource g s).topSubgraphs = g.topSubgraphs ∧
    (AddSource g s).edgeCount = g.edgeCount ∧
    (AddSource g s).rainbowEdge = g.rainbowEdge := by
  simp only [AddSource, newNode, nodeSet, gAddNode, addEdge, sgNameOf]
  simp only [hdns, if_neg hs]
  cases hsg : g.subgraphs.lookup "" <;> simp

theorem AddSubscription_proj (g : Graph) (s : Subscription) :
    ∃ gmid : Graph,
      gmid.fresh = g.fresh + 1 ∧
      gmid.nodeNames = (g.fresh, "Subscription " ++ s.name) :: g.nodeNames ∧
      gmid.nodes = mapSet g.nodes (subscriptionKey s.name) g.fresh ∧
      gmid.subgraphs = g.subgraphs ∧
      gmid.dnsToKey = g.dnsToKey ∧
      gmid.edges = g.edges ∧
      gmid.sgFresh = g.sgFresh ∧
      gmid.topSubgraphs = g.topSubgraphs ∧
      gmid.edgeCount = g.edgeCount ∧
      gmid.rainbowEdge = g.rainbowEdge ∧
      (match g.subgraphs.lookup (gvkKey (refGVK s.channel) s.channel.name) with
       | some sgid =>
         gmid.topNodes = g.topNodes ∧ gmid.sgNodes = g.sgNodes ++ [(sgid, g.fresh)]
       | none =>
         gmid.topNodes = g.topNodes ++ [g.fresh] ∧ gmid.sgNodes = g.sgNodes) ∧
      AddSubscription g s =
        (let q := getOrCreateSubscriber gmid s.subscriber
         let g4 := addEdge q.2
           { src := some g.fresh, dst := some q.1, attrs := [("dir", "both")],
             colorIdx := none }
         match getOrCreateReply g4 s.reply with
         | (some rep, g5) =>
           let c := newEdgeColor g5
           addEdge c.2
             { src := some g.fresh, dst := some rep,
               attrs := [("dir", "forward")], colorIdx := c.1 }
         | (none, g5) => g5) := by
  cases hsg : g.subgraphs.lookup (gvkKey (refGVK s.channel) s.channel.name) with
  | none =>
    refine ⟨{ g with
                fresh := g.fresh + 1,
                nodeNames := (g.fresh, "Subscription " ++ s.name) :: g.nodeNames,
                topNodes := g.topNodes ++ [g.fresh],
                nodes := mapSet g.nodes (subscriptionKey s.name) g.fresh },
            rfl, rfl, rfl, rfl, rfl, rfl, rfl, rfl, rfl, rfl, ?_, ?_⟩
    · simp [hsg]
    · simp only [AddSubscription, placeByCluster, newNode, gAddNode]
      simp only [hsg]
  | some sgid =>
    refine ⟨{ g with
                fresh := g.fresh + 1,
                nodeNames := (g.fresh, "Subscription " ++ s.name) :: g.nodeNames,
                sgNodes := g.sgNodes ++ [(sgid, g.fresh)],
                nodes := mapSet g.nodes (subscriptionKey s.name) g.fresh },
            rfl, rfl, rfl, rfl, rfl, rfl, rfl, rfl, rfl, rfl, ?_, ?_⟩
    · simp [hsg]
    · simp only [AddSubscription, placeByCluster, newNode, sgAddNode]
      simp only [hsg]

theorem AddTrigger_proj_hit (g : Graph) (t : Trigger) (bn : Nat)
    (hbk : g.nodes.lookup (brokerKey t.broker) = some bn) :
    ∃ gmid : Graph,
      gmid.fresh = g.fresh + 1 ∧
      gmid.nodeNames = (g.fresh, "Trigger " ++ t.name) :: g.nodeNames ∧
      gmid.nodes = mapSet g.nodes (triggerKey t.name) g.fresh ∧
      gmid.subgraphs = g.subgraphs ∧
      gmid.dnsToKey = g.dnsToKey ∧
      gmid.edges = g.edges ∧
      gmid.sgFresh = g.sgFresh ∧
      gmid.topSubgraphs = g.topSubgraphs ∧
      gmid.edgeCount = g.edgeCount ∧
      gmid.rainbowEdge = g.rainbowEdge ∧
      (match g.subgraphs.lookup (brokerKey t.broker) with
       | some sgid =>
         gmid.topNodes = g.topNodes ∧ gmid.sgNodes = g.sgNodes ++ [(sgid, g.fresh)]
       | none =>
         gmid.topNodes = g.topNodes ++ [g.fresh] ∧ gmid.sgNodes = g.sgNodes) ∧
      AddTrigger g t =
        (let q := getOrCreateSubscriber gmid t.subscriber
         addEdge q.2
           { src := some g.fresh, dst := some q.1, attrs := [("dir", "both")],
             colorIdx := none }) := by
  cases hsg : g.subgraphs.lookup (brokerKey t.broker) with
  | none =>
    rcases hf : t.filter with _ | st
    · refine ⟨{ g with
                  fresh := g.fresh + 1,
                  nodeNames := (g.fresh, "Trigger " ++ t.name) :: g.nodeNames,
                  nodeAttrs := (g.fresh, "shape", "box") :: g.nodeAttrs,
                  topNodes := g.topNodes ++ [g.fresh],
                  nodes := mapSet g.nodes (triggerKey t.name) g.fresh },
              rfl, rfl, rfl, rfl, rfl, rfl, rfl, rfl, rfl, rfl, by simp [hsg], ?_⟩
      simp only [AddTrigger, placeByCluster, newNode, nodeSet, gAddNode]
      simp only [hbk, hf, hsg]
    · refine ⟨{ g with
                  fresh := g.fresh + 1,
                  nodeNames := (g.fresh, "Trigger " ++ t.name) :: g.nodeNames,
                  nodeAttrs := (g.fresh, "label", "Trigger " ++ t.name ++ "\n"
                      ++ "Source:" ++ st.1 ++ "\nType:" ++ st.2)
                    :: (g.fresh, "shape", "box") :: g.nodeAttrs,
                  topNodes := g.topNodes ++ [g.fresh],
                  nodes := mapSet g.nodes (triggerKey t.name) g.fresh },
              rfl, rfl, rfl, rfl, rfl, rfl, rfl, rfl, rfl, rfl, by simp [hsg], ?_⟩
      simp only [AddTrigger, placeByCluster, newNode, nodeSet, gAddNode]
      simp only [hbk, hf, hsg]
  | some sgid =>
    rcases hf : t.filter with _ | st
    · refine ⟨{ g with
                  fresh := g.fresh + 1,
                  nodeNames := (g.fresh, "Trigger " ++ t.name) :: g.nodeNames,
                  nodeAttrs := (g.fresh, "shape", "box") :: g.nodeAttrs,
                  sgNodes := g.sgNodes ++ [(sgid, g.fresh)],
                  nodes := mapSet g.nodes (triggerKey t.name) g.fresh },
              rfl, rfl, rfl, rfl, rfl, rfl, rfl, rfl, rfl, rfl, by simp [hsg], ?_⟩
      simp only [AddTrigger, placeByCluster, newNode, nodeSet, sgAddNode]
      simp only [hbk, hf, hsg]
    · refine ⟨{ g with
                  fresh := g.fresh + 1,
                  nodeNames := (g.fresh, "Trigger " ++ t.name) :: g.nodeNames,
                  nodeAttrs := (g.fresh, "label", "Trigger " ++ t.name ++ "\n"
                      ++ "Source:" ++ st.1 ++ "\nType:" ++ st.2)
                    :: (g.fresh, "shape", "box") :: g.nodeAttrs,
                  sgNodes := g.sgNodes ++ [(sgid, g.fresh)],
                  nodes := mapSet g.nodes (triggerKey t.name) g.fresh },
              rfl, rfl, rfl, rfl, rfl, rfl, rfl, rfl, rfl, rfl, by simp [hsg], ?_⟩
      simp only [AddTrigger, placeByCluster, newNode, nodeSet, sgAddNode]
      simp only [hbk, hf, hsg]

theorem AddTrigger_proj_miss (g : Graph) (t : Trigger)
    (hbk : g.nodes.lookup (brokerKey t.broker) = none) :
    ∃ gmid : Graph,
      gmid.fresh = g.fresh + 2 ∧
      gmid.nodeNames = (g.fresh + 1, "Trigger " ++ t.name)
        :: (g.fresh, "UnknownBroker " ++ t.broker) :: g.nodeNames ∧
      gmid.nodes = mapSet (mapSet g.nodes (brokerKey t.broker) g.fresh)
        (triggerKey t.name) (g.fresh + 1) ∧
      gmid.subgraphs = g.subgraphs ∧
      gmid.dnsToKey = g.dnsToKey ∧
      gmid.edges = g.edges ∧
      gmid.sgFresh = g.sgFresh ∧
      gmid.topSubgraphs = g.topSubgraphs ∧
      gmid.edgeCount = g.edgeCount ∧
      gmid.rainbowEdge = g.rainbowEdge ∧
      (match g.subgraphs.lookup (brokerKey t.broker) with
       | some sgid =>
         gmid.topNodes = g.topNodes ++ [g.fresh] ∧
         gmid.sgNodes = g.sgNodes ++ [(sgid, g.fresh + 1)]
       | none =>
         gmid.topNodes = (g.topNodes ++ [g.fresh]) ++ [g.fresh + 1] ∧
         gmid.sgNodes = g.sgNodes) ∧
      AddTrigger g t =
        (let q := getOrCreateSubscriber gmid t.subscriber
         addEdge q.2
           { src := some (g.fresh + 1), dst := some q.1,
             attrs := [("dir", "both")], colorIdx := none }) := by
  cases hsg : g.subgraphs.lookup (brokerKey t.broker) with
  | none =>
    rcases hf : t.filter with _ | st
    · refine ⟨{ g with
                  fresh := g.fresh + 2,
                  nodeNames := (g.fresh + 1, "Trigger " ++ t.name)
                    :: (g.fresh, "UnknownBroker " ++ t.broker) :: g.nodeNames,
                  nodeAttrs := (g.fresh + 1, "shape", "box") :: g.nodeAttrs,
                  topNodes := (g.topNodes ++ [g.fresh]) ++ [g.fresh + 1],
                  nodes := mapSet (mapSet g.nodes (brokerKey t.broker) g.fresh)
                    (triggerKey t.name) (g.fresh + 1) },
              rfl, rfl, rfl, rfl, rfl, rfl, rfl, rfl, rfl, rfl, by simp [hsg], ?_⟩
      simp only [AddTrigger, placeByCluster, newNode, nodeSet, gAddNode]
      simp only [hbk, hf, hsg]
    · refine ⟨{ g with
                  fresh := g.fresh + 2,
                  nodeNames := (g.fresh + 1, "Trigger " ++ t.name)
                    :: (g.fresh, "UnknownBroker " ++ t.broker) :: g.nodeNames,
                  nodeAttrs := (g.fresh + 1, "label", "Trigger " ++ t.name
                      ++ "\n" ++ "Source:" ++ st.1 ++ "\nType:" ++ st.2)
                    :: (g.fresh + 1, "shape", "box") :: g.nodeAttrs,
                  topNodes := (g.topNodes ++ [g.fresh]) ++ [g.fresh + 1],
                  nodes := mapSet (mapSet g.nodes (brokerKey t.broker) g.fresh)
                    (triggerKey t.name) (g.fresh + 1) },
              rfl, rfl, rfl, rfl, rfl, rfl, rfl, rfl, rfl, rfl, by simp [hsg], ?_⟩
      simp only [AddTrigger, placeByCluster, newNode, nodeSet, gAddNode]
      simp only [hbk, hf, hsg]
  | some sgid =>
    rcases hf : t.filter with _ | st
    · refine ⟨{ g with
                  fresh := g.fresh + 2,
                  nodeNames := (g.fresh + 1, "Trigger " ++ t.name)
                    :: (g.fresh, "UnknownBroker " ++ t.broker) :: g.nodeNames,
                  nodeAttrs := (g.fresh + 1, "shape", "box") :: g.nodeAttrs,
                  topNodes := g.topNodes ++ [g.fresh],
                  sgNodes := g.sgNodes ++ [(sgid, g.fresh + 1)],
                  nodes := mapSet (mapSet g.nodes (brokerKey t.broker) g.fresh)
                    (triggerKey t.name) (g.fresh + 1) },
              rfl, rfl, rfl, rfl, rfl, rfl, rfl, rfl, rfl, rfl, by simp [hsg], ?_⟩
      simp only [AddTrigger, placeByCluster, newNode, nodeSet, gAddNode,
                 sgAddNode]
      simp only [hbk, hf, hsg]
    · refine ⟨{ g with
                  fresh := g.fresh + 2,
                  nodeNames := (g.fresh + 1, "Trigger " ++ t.name)
                    :: (g.fresh, "UnknownBroker " ++ t.broker) :: g.nodeNames,
                  nodeAttrs := (g.fresh + 1, "label", "Trigger " ++ t.name
                      ++ "\n" ++ "Source:" ++ st.1 ++ "\nType:" ++ st.2)
                    :: (g.fresh + 1, "shape", "box") :: g.nodeAttrs,
                  topNodes := g.topNodes ++ [g.fresh],
                  sgNodes := g.sgNodes ++ [(sgid, g.fresh + 1)],
                  nodes := mapSet (mapSet g.nodes (brokerKey t.broker) g.fresh)
                    (triggerKey t.name) (g.fresh + 1) },
              rfl, rfl, rfl, rfl, rfl, rfl, rfl, rfl, rfl, rfl, by simp [hsg], ?_⟩
      simp only [AddTrigger, placeByCluster, newNode, nodeSet, gAddNode,
                 sgAddNode]
      simp only [hbk, hf, hsg]

theorem AddKnService_none (g : Graph) (s : KnService)
    (h : s.containers = []) : AddKnService g s = none := by
  unfold AddKnService
  cases hk : g.nodes.lookup (servingKey s.kind s.name) <;> simp [h, hk]

theorem AddKnService_hit (g : Graph) (s : KnService) (svc : Nat)
    (c : Container) (cs : List Container)
    (h1 : g.nodes.lookup (servingKey s.kind s.name) = some svc)
    (h2 : s.containers = c :: cs) :
    AddKnService g s = some (c.env.foldl (knEnvStep svc) g) := by
  unfold AddKnService
  simp [h1, h2]

theorem AddKnService_miss_proj (g : Graph) (s : KnService)
    (c : Container) (cs : List Container)
    (h1 : g.nodes.lookup (servingKey s.kind s.name) = none)
    (h2 : s.containers = c :: cs) :
    ∃ gmid : Graph,
      gmid.fresh = g.fresh + 1 ∧
      gmid.nodeNames = (g.fresh, s.name ++ "\nKind: " ++ s.kind ++ "\n"
        ++ s.apiVersion) :: g.nodeNames ∧
      gmid.nodes = mapSet g.nodes (servingKey s.kind s.name) g.fresh ∧
      gmid.topNodes = g.topNodes ++ [g.fresh] ∧
      gmid.subgraphs = g.subgraphs ∧
      gmid.dnsToKey = g.dnsToKey ∧
      gmid.edges = g.edges ∧
      gmid.sgNodes = g.sgNodes ∧
      gmid.sgFresh = g.sgFresh ∧
      gmid.topSubgraphs = g.topSubgraphs ∧
      gmid.edgeCount = g.edgeCount ∧
      gmid.rainbowEdge = g.rainbowEdge ∧
      AddKnService g s = some (c.env.foldl (knEnvStep g.fresh) gmid) := by
  by_cases hc : s.apiVersion = "serving.knative.dev/v1beta1" ∧ s.kind = "Service"
  · refine ⟨{ g with
                fresh := g.fresh + 1,
                nodeNames := (g.fresh, s.name ++ "\nKind: " ++ s.kind ++ "\n"
                  ++ s.apiVersion) :: g.nodeNames,
                nodeAttrs := (g.fresh, "shape", "septagon")
                  :: (g.fresh, "shape", "septagon") :: g.nodeAttrs,
                nodes := mapSet g.nodes (servingKey s.kind s.name) g.fresh,
                topNodes := g.topNodes ++ [g.fresh] },
            rfl, rfl, rfl, rfl, rfl, rfl, rfl, rfl, rfl, rfl, rfl, rfl, ?_⟩
    unfold AddKnService
    simp only [h1, h2, newNode, setNodeShapeForKind, nodeSet, gAddNode]
    simp [hc]
  · refine ⟨{ g with
                fresh := g.fresh + 1,
                nodeNames := (g.fresh, s.name ++ "\nKind: " ++ s.kind ++ "\n"
                  ++ s.apiVersion) :: g.nodeNames,
                nodeAttrs := (g.fresh, "shape", "septagon") :: g.nodeAttrs,
                nodes := mapSet g.nodes (servingKey s.kind s.name) g.fresh,
                topNodes := g.topNodes ++ [g.fresh] },
            rfl, rfl, rfl, rfl, rfl, rfl, rfl, rfl, rfl, rfl, rfl, rfl, ?_⟩
    unfold AddKnService
    simp only [h1, h2, newNode, setNodeShapeForKind, nodeSet, gAddNode]
    simp [hc]

theorem knEnvStep_frame (svcId : Nat) (g : Graph) (e : EnvVar) :
    (knEnvStep svcId g e).nodes = g.nodes ∧
    (knEnvStep svcId g e).subgraphs = g.subgraphs ∧
    (knEnvStep svcId g e).dnsToKey = g.dnsToKey ∧
    (knEnvStep svcId g e).sgNodes = g.sgNodes ∧
    (knEnvStep svcId g e).sgFresh = g.sgFresh ∧
    (knEnvStep svcId g e).topSubgraphs = g.topSubgraphs ∧
    (knEnvStep svcId g e).edgeCount = g.edgeCount ∧
    (knEnvStep svcId g e).rainbowEdge = g.rainbowEdge ∧
    g.fresh ≤ (knEnvStep svcId g e).fresh := by
  unfold knEnvStep
  split
  · cases hd : g.dnsToKey.lookup (trimSuffix e.value "/") with
    | none =>
      rw [gosink_miss hd]
      simp [addEdge]
    | some k =>
      rw [gosink_hit hd]
      simp [addEdge]
  · simp

theorem knEnvStep_wf (svcId : Nat) (g : Graph) (e : EnvVar) (hw : WF g)
    (hs : svcId < g.fresh) : WF (knEnvStep svcId g e) := by
  obtain ⟨b1, b2, b3, b4, b5⟩ := hw
  unfold knEnvStep
  split
  · cases hd : g.dnsToKey.lookup (trimSuffix e.value "/") with
    | none =>
      rw [gosink_miss hd]
      unfold WF Below addEdge
      simp only
      refine ⟨?_, ?_, ?_, ?_, ?_⟩
      · exact List.forall_mem_cons.2
          ⟨by omega, fun p hp => by have := b1 p hp; omega⟩
      · refine List.forall_mem_append.2
          ⟨fun i hi => by have := b2 i hi; omega, ?_⟩
        intro i hi
        simp at hi
        omega
      · exact fun p hp => by have := b3 p hp; omega
      · exact fun p hp => by have := b4 p hp; omega
      · refine List.forall_mem_append.2
          ⟨fun x hx => ⟨fun i hi => by have := (b5 x hx).1 i hi; omega,
                        fun i hi => by have := (b5 x hx).2 i hi; omega⟩, ?_⟩
        intro x hx
        simp at hx
        subst hx
        refine ⟨fun i hi => by simp at hi; omega, ?_⟩
        intro i hi
        simp at hi
        have := b4 _ (lookup_mem hi)
        simp at this
        omega
    | some k =>
      rw [gosink_hit hd]
      unfold WF Below addEdge
      simp only
      refine ⟨b1, b2, b3, b4, ?_⟩
      refine List.forall_mem_append.2 ⟨b5, ?_⟩
      intro x hx
      simp at hx
      subst hx
      refine ⟨fun i hi => by simp at hi; omega, ?_⟩
      intro i hi
      simp at hi
      have := b4 _ (lookup_mem hi)
      simp at this
      omega
  · exact ⟨b1, b2, b3, b4, b5⟩

theorem knFold_frame (svcId : Nat) (l : List EnvVar) : ∀ (g : Graph),
    (l.foldl (knEnvStep svcId) g).nodes = g.nodes ∧
    (l.foldl (knEnvStep svcId) g).subgraphs = g.subgraphs ∧
    (l.foldl (knEnvStep svcId) g).dnsToKey = g.dnsToKey ∧
    (l.foldl (knEnvStep svcId) g).sgNodes = g.sgNodes ∧
    (l.foldl (knEnvStep svcId) g).sgFresh = g.sgFresh ∧
    (l.foldl (knEnvStep svcId) g).topSubgraphs = g.topSubgraphs ∧
    (l.foldl (knEnvStep svcId) g).edgeCount = g.edgeCount ∧
    (l.foldl (knEnvStep svcId) g).rainbowEdge = g.rainbowEdge ∧
    g.fresh ≤ (l.foldl (knEnvStep svcId) g).fresh ∧
    (WF g → svcId < g.fresh → WF (l.foldl (knEnvStep svcId) g)) := by
  induction l with
  | nil =>
    intro g
    exact ⟨rfl, rfl, rfl, rfl, rfl, rfl, rfl, rfl, le_refl _,
           fun hw _ => hw⟩
  | cons e l ih =>
    intro g
    obtain ⟨f1, f2, f3, f4, f5, f6, f7, f8, f9⟩ := knEnvStep_frame svcId g e
    obtain ⟨i1, i2, i3, i4, i5, i6, i7, i8, i9, i10⟩ := ih (knEnvStep svcId g e)
    simp only [List.foldl_cons]
    refine ⟨by rw [i1, f1], by rw [i2, f2], by rw [i3, f3], by rw [i4, f4],
            by rw [i5, f5], by rw [i6, f6], by rw [i7, f7], by rw [i8, f8],
            by omega, ?_⟩
    intro hw hs
    exact i10 (knEnvStep_wf svcId g e hw hs) (by omega)

/-- A plain chain edge between two nodes, as `AddSequence` emits between
consecutive steps. -/
def chainEdge (a b : Nat) : Edge :=
  { src := some a, dst := some b, attrs := [], colorIdx := none }

theorem addSeqSteps_cons (name : String) (sgId : Nat) (g : Graph)
    (prev num : Nat) (step : SubscriberSpec) (rest : List SubscriberSpec) :
    addSeqSteps name sgId g prev num (step :: rest) =
      (let g5 : Graph :=
        { g with
            fresh := g.fresh + 1,
            nodeNames := (g.fresh, sequenceStepKey name num) :: g.nodeNames,
            nodeAttrs := (g.fresh, "shape", "box")
              :: (g.fresh, "label", "Step " ++ natToStr num) :: g.nodeAttrs,
            sgNodes := g.sgNodes ++ [(sgId, g.fresh)],
            nodes := mapSet g.nodes (sequenceStepKey name num) g.fresh }
       let q := getOrCreateSubscriber g5 (some step)
       let g7 := addEdge
         (addEdge q.2
           { src := some g.fresh, dst := some q.1, attrs := [("dir", "both")],
             colorIdx := none })
         { src := some prev, dst := some g.fresh, attrs := [],
           colorIdx := none }
       addSeqSteps name sgId g7 g.fresh (num + 1) rest) := by
  simp only [addSeqSteps, newNode, nodeSet, sgAddNode, addEdge]

theorem addSeqSteps_spec (name : String) (sgId : Nat) :
    ∀ (steps : List SubscriberSpec) (g : Graph) (prev num : Nat),
    (addSeqSteps name sgId g prev num steps).2.subgraphs = g.subgraphs ∧
    (addSeqSteps name sgId g prev num steps).2.dnsToKey = g.dnsToKey ∧
    (addSeqSteps name sgId g prev num steps).2.sgFresh = g.sgFresh ∧
    (addSeqSteps name sgId g prev num steps).2.topSubgraphs = g.topSubgraphs ∧
    (addSeqSteps name sgId g prev num steps).2.edgeCount = g.edgeCount ∧
    (addSeqSteps name sgId g prev num steps).2.rainbowEdge = g.rainbowEdge ∧
    g.fresh ≤ (addSeqSteps name sgId g prev num steps).2.fresh ∧
    (∀ k, (g.nodes.lookup k).isSome →
      (((addSeqSteps name sgId g prev num steps).2.nodes.lookup k).isSome)) ∧
    (∀ k v, g.nodes.lookup k = some v →
      (∀ j, k ≠ sequenceStepKey name (num + j)) →
      (addSeqSteps name sgId g prev num steps).2.nodes.lookup k = some v) ∧
    (WF g → prev < g.fresh →
      WF (addSeqSteps name sgId g prev num steps).2 ∧
      (addSeqSteps name sgId g prev num steps).1
        < (addSeqSteps name sgId g prev num steps).2.fresh) ∧
    ∃ sids : List Nat,
      sids.length = steps.length ∧
      (∀ x ∈ sids, g.fresh ≤ x) ∧
      (∀ j, ∀ hj : j < sids.length,
        (addSeqSteps name sgId g prev num steps).2.nodes.lookup
            (sequenceStepKey name (num + j))
          = some (sids.get ⟨j, hj⟩)) ∧
    ∃ tail,
      (addSeqSteps name sgId g prev num steps).2.edges = g.edges ++ tail ∧
      tail.filter (fun e => e.attrs.isEmpty)
        = List.zipWith chainEdge (prev :: sids) sids := by
  intro steps
  induction steps with
  | nil =>
    intro g prev num
    refine ⟨rfl, rfl, rfl, rfl, rfl, rfl, le_refl _,
            fun k hk => hk, fun k v hk _ => hk,
            fun hw hp => ⟨hw, hp⟩, [], rfl, by simp, by simp, [], ?_, rfl⟩
    simp [addSeqSteps]
  | cons step rest ih =>
    intro g prev num
    rw [addSeqSteps_cons]
    simp only
    set g5 : Graph :=
      { g with
          fresh := g.fresh + 1,
          nodeNames := (g.fresh, sequenceStepKey name num) :: g.nodeNames,
          nodeAttrs := (g.fresh, "shape", "box")
            :: (g.fresh, "label", "Step " ++ natToStr num) :: g.nodeAttrs,
          sgNodes := g.sgNodes ++ [(sgId, g.fresh)],
          nodes := mapSet g.nodes (sequenceStepKey name num) g.fresh }
      with hg5
    set q := getOrCreateSubscriber g5 (some step) with hq
    set g7 : Graph := addEdge
      (addEdge q.2
        { src := some g.fresh, dst := some q.1, attrs := [("dir", "both")],
          colorIdx := none })
      { src := some prev, dst := some g.fresh, attrs := [], colorIdx := none }
      with hg7
    obtain ⟨qf1, qe, qsgN, qsub, qdns, qsgF, qtops, qec, qre, qpres, qpresS⟩ :=
      gocs_frame g5 (some step)
    obtain ⟨i1, i2, i3, i4, i5, i6, i7, i8, i9, i10, sids, is1, is2, is3,
            tail, it1, it2⟩ := ih g7 g.fresh (num + 1)
    have hg7sub : g7.subgraphs = g.subgraphs := by
      rw [hg7]
      simp only [addEdge]
      exact qsub.trans rfl
    have hg7dns : g7.dnsToKey = g.dnsToKey := by
      rw [hg7]
      simp only [addEdge]
      exact qdns.trans rfl
    have hg7sgF : g7.sgFresh = g.sgFresh := by
      rw [hg7]
      simp only [addEdge]
      exact qsgF.trans rfl
    have hg7tops : g7.topSubgraphs = g.topSubgraphs := by
      rw [hg7]
      simp only [addEdge]
      exact qtops.trans rfl
    have hg7ec : g7.edgeCount = g.edgeCount := by
      rw [hg7]
      simp only [addEdge]
      exact qec.trans rfl
    have hg7re : g7.rainbowEdge = g.rainbowEdge := by
      rw [hg7]
      simp only [addEdge]
      exact qre.trans rfl
    have hg7nodes : g7.nodes = q.2.nodes := by
      rw [hg7]
      simp only [addEdge]
    have hg7fresh : g7.fresh = q.2.fresh := by
      rw [hg7]
      simp only [addEdge]
    have hg7edges : g7.edges = g.edges ++
        [{ src := some g.fresh, dst := some q.1, attrs := [("dir", "both")],
           colorIdx := none },
         { src := some prev, dst := some g.fresh, attrs := [],
           colorIdx := none }] := by
      rw [hg7]
      simp only [addEdge]
      rw [qe]
      simp
    have hfresh5 : g5.fresh = g.fresh + 1 := rfl
    have hfreshle : g.fresh + 1 ≤ g7.fresh := by
      rw [hg7fresh]
      exact hfresh5 ▸ qf1
    refine ⟨i1.trans hg7sub, i2.trans hg7dns, i3.trans hg7sgF,
            i4.trans hg7tops, i5.trans hg7ec, i6.trans hg7re,
            by omega, ?_, ?_, ?_, ?_⟩
    · intro k hk
      apply i8
      rw [hg7nodes]
      apply qpresS
      show ((mapSet g.nodes (sequenceStepKey name num) g.fresh).lookup k).isSome
      exact lookup_isSome_mapSet _ _ _ _ hk
    · intro k v hk hkne
      apply i9
      · rw [hg7nodes]
        apply qpres
        show (mapSet g.nodes (sequenceStepKey name num) g.fresh).lookup k
          = some v
        rw [lookup_mapSet_ne]
        · exact hk
        · have := hkne 0
          simpa using this
      · intro j
        have := hkne (j + 1)
        rwa [show num + (j + 1) = num + 1 + j by omega] at this
    · intro hw hp
      have hwf5 : WF g5 := by
        obtain ⟨b1, b2, b3, b4, b5⟩ := hw
        refine ⟨?_, ?_, ?_, ?_, ?_⟩
        · exact List.forall_mem_cons.2
            ⟨by simp [hg5], fun p hp2 => by
              have := b1 p hp2
              simp only [hg5]
              omega⟩
        · intro i hi
          have := b2 i hi
          simp only [hg5]
          omega
        · refine List.forall_mem_append.2 ⟨?_, ?_⟩
          · intro p hp2
            have := b3 p hp2
            simp only [hg5]
            omega
          · intro p hp2
            simp at hp2
            simp only [hg5, hp2]
            omega
        · intro p hp2
          rcases mem_mapSet hp2 with hp2 | hp2
          · simp [hg5, hp2]
          · have := b4 p hp2
            simp only [hg5]
            omega
        · intro e he
          have := b5 e he
          refine ⟨fun i hi => ?_, fun i hi => ?_⟩
          · have := this.1 i hi
            simp only [hg5]
            omega
          · have := this.2 i hi
            simp only [hg5]
            omega
      obtain ⟨hwq, hq1⟩ := gocs_wf (some step) hwf5
      have hwf7 : WF g7 := by
        rw [hg7]
        apply below_addEdge
        · apply below_addEdge
          · exact below_mono hwq (by simp [addEdge])
          · intro i hi
            simp only [addEdge]
            simp at hi
            subst hi
            have : g5.fresh ≤ q.2.fresh := qf1
            rw [hfresh5] at this
            omega
          · intro i hi
            simp only [addEdge]
            simp at hi
            subst hi
            exact hq1
        · intro i hi
          simp only [addEdge]
          simp at hi
          subst hi
          have : g5.fresh ≤ q.2.fresh := qf1
          rw [hfresh5] at this
          omega
        · intro i hi
          simp at hi
          subst hi
          simp only [addEdge]
          have : g5.fresh ≤ q.2.fresh := qf1
          rw [hfresh5] at this
          omega
      have := i10 hwf7 (by omega)
      exact ⟨this.1, this.2⟩
    · refine ⟨g.fresh :: sids, by simp [is1], ?_, ?_, ?_⟩
      · intro x hx
        rcases List.mem_cons.1 hx with hx | hx
        · omega
        · have := is2 x hx
          omega
      · intro j hj
        cases j with
        | zero =>
          show (addSeqSteps name sgId g7 g.fresh (num + 1) rest).2.nodes.lookup
              (sequenceStepKey name (num + 0)) = some g.fresh
          apply i9
          · rw [hg7nodes]
            apply qpres
            show (mapSet g.nodes (sequenceStepKey name num) g.fresh).lookup
                (sequenceStepKey name (num + 0)) = some g.fresh
            exact lookup_mapSet_self _ _ _
          · intro j
            intro hcon
            have := sequenceStepKey_inj name hcon
            omega
        | succ j' =>
          have hj' : j' < sids.length := by
            simp at hj
            omega
          have := is3 j' hj'
          rw [show num + 1 + j' = num + (j' + 1) by omega] at this
          exact this
      · refine ⟨({ src := some g.fresh, dst := some q.1,
                   attrs := [("dir", "both")], colorIdx := none } : Edge)
                :: { src := some prev, dst := some g.fresh, attrs := [],
                     colorIdx := none } :: tail, ?_, ?_⟩
        · rw [it1, hg7edges]
          simp
        · simp only [List.filter_cons]
          simp [chainEdge, it2]

theorem AddSequence_proj (g : Graph) (sq : Sequence) :
    ∃ g6 : Graph,
      g6.fresh = g.fresh + 1 ∧
      g6.nodeNames = (g.fresh, "Sequence " ++ trimSuffix sq.statusAddress "/")
        :: g.nodeNames ∧
      g6.nodes = mapSet g.nodes (sequenceKey sq.name) g.fresh ∧
      g6.subgraphs = g.subgraphs ∧
      g6.dnsToKey = mapSet g.dnsToKey (trimSuffix sq.statusAddress "/")
        (sequenceKey sq.name) ∧
      g6.topNodes = g.topNodes ∧
      g6.sgNodes = g.sgNodes ++ [(g.sgFresh, g.fresh)] ∧
      g6.sgFresh = g.sgFresh + 1 ∧
      g6.topSubgraphs = g.topSubgraphs ∧
      g6.edges = g.edges ∧
      g6.edgeCount = g.edgeCount ∧
      g6.rainbowEdge = g.rainbowEdge ∧
      AddSequence g sq =
        (let r := addSeqSteps sq.name g.sgFresh g6 g.fresh 0 sq.steps
         let g7 :=
           match sq.reply with
           | some rep =>
             let w := newNode r.2
               ("Reply " ++ trimSuffix sq.statusAddress "/")
             let ga := nodeSet w.2 w.1 "label" "Reply"
             let gb := sgAddNode ga g.sgFresh w.1
             let gc := addEdge gb
               { src := some r.1, dst := some w.1, attrs := [],
                 colorIdx := none }
             let rk := gvkKey (refGVK rep) rep.name
             match gc.nodes.lookup rk with
             | some rn =>
               addEdge gc
                 { src := some w.1, dst := some rn, attrs := [],
                   colorIdx := none }
             | none => gc
           | none => r.2
         gAddSubgraph
           { g7 with
               subgraphs := mapSet g7.subgraphs (sequenceKey sq.name)
                 g.sgFresh }
           g.sgFresh) := by
  refine ⟨{ g with
              fresh := g.fresh + 1,
              nodeNames := (g.fresh, "Sequence "
                ++ trimSuffix sq.statusAddress "/") :: g.nodeNames,
              nodeAttrs := (g.fresh, "label", "Start") :: g.nodeAttrs,
              sgNames := (g.sgFresh, "cluster_"
                ++ natToStr g.subgraphs.length) :: g.sgNames,
              sgAttrs := (g.sgFresh, "label", "Sequence " ++ sq.name ++ "\n"
                ++ trimSuffix sq.statusAddress "/") :: g.sgAttrs,
              sgFresh := g.sgFresh + 1,
              nodes := mapSet g.nodes (sequenceKey sq.name) g.fresh,
              dnsToKey := mapSet g.dnsToKey (trimSuffix sq.statusAddress "/")
                (sequenceKey sq.name),
              sgNodes := g.sgNodes ++ [(g.sgFresh, g.fresh)] },
          rfl, rfl, rfl, rfl, rfl, rfl, rfl, rfl, rfl, rfl, rfl, rfl, ?_⟩
  simp only [AddSequence, newSubgraph, sgSet, newNode, nodeSet, sgAddNode]

theorem gorep_frame (g : Graph) (rep : Option ReplyStrategy) :
    (getOrCreateReply g rep).2.nodes = g.nodes ∧
    (getOrCreateReply g rep).2.dnsToKey = g.dnsToKey ∧
    (getOrCreateReply g rep).2.subgraphs = g.subgraphs ∧
    (getOrCreateReply g rep).2.topNodes = g.topNodes ∧
    (getOrCreateReply g rep).2.sgNodes = g.sgNodes ∧
    (getOrCreateReply g rep).2.edges = g.edges ∧
    (getOrCreateReply g rep).2.sgFresh = g.sgFresh ∧
    (getOrCreateReply g rep).2.topSubgraphs = g.topSubgraphs ∧
    (getOrCreateReply g rep).2.edgeCount = g.edgeCount ∧
    (getOrCreateReply g rep).2.rainbowEdge = g.rainbowEdge ∧
    g.fresh ≤ (getOrCreateReply g rep).2.fresh ∧
    (∀ p ∈ (getOrCreateReply g rep).2.nodeNames,
      p ∈ g.nodeNames ∨
        (p.1 = g.fresh ∧ (getOrCreateReply g rep).2.fresh = g.fresh + 1)) ∧
    (∀ i, (getOrCreateReply g rep).1 = some i →
      ∃ k, g.nodes.lookup k = some i) := by
  rcases rep with _ | r
  · exact ⟨rfl, rfl, rfl, rfl, rfl, rfl, rfl, rfl, rfl, rfl, le_refl _,
           fun p hp => Or.inl hp, by simp [getOrCreateReply]⟩
  · rcases hc : r.channel with _ | ch
    · rw [show getOrCreateReply g (some r) = (none, g) by
            unfold getOrCreateReply; simp [hc]]
      exact ⟨rfl, rfl, rfl, rfl, rfl, rfl, rfl, rfl, rfl, rfl, le_refl _,
             fun p hp => Or.inl hp, by simp⟩
    · cases hk : g.nodes.lookup (channelKey ch.name) with
      | none =>
        rw [gorep_miss hc hk]
        refine ⟨rfl, rfl, rfl, rfl, rfl, rfl, rfl, rfl, rfl, rfl,
                Nat.le_succ g.fresh, ?_, by simp⟩
        intro p hp
        rcases List.mem_cons.1 hp with hp | hp
        · simp [hp]
        · exact Or.inl hp
      | some id =>
        rw [gorep_hit hc hk]
        refine ⟨rfl, rfl, rfl, rfl, rfl, rfl, rfl, rfl, rfl, rfl, le_refl _,
                fun p hp => Or.inl hp, ?_⟩
        intro i hi
        simp at hi
        subst hi
        exact ⟨_, hk⟩

theorem AddChannel_wf (g : Graph) (c : Channel) (hw : WF g) :
    WF (AddChannel g c) := by
  obtain ⟨f1, f2, f3, f4, f5, f6, f7, f8, f9, f10, f11, f12⟩ :=
    AddChannel_fields g c
  obtain ⟨b1, b2, b3, b4, b5⟩ := hw
  unfold WF Below
  rw [f1, f3, f4, f7, f8, f10]
  refine ⟨?_, ?_, ?_, ?_, ?_⟩
  · exact List.forall_mem_cons.2
      ⟨by omega, fun p hp => by have := b1 p hp; omega⟩
  · intro i hi
    have := b2 i hi
    omega
  · refine List.forall_mem_append.2
      ⟨fun p hp => by have := b3 p hp; omega, ?_⟩
    intro p hp
    simp at hp
    simp [hp]
  · intro p hp
    rcases mem_mapSet hp with hp | hp
    · simp [hp]
    · have := b4 p hp
      omega
  · intro e he
    exact ⟨fun i hi => by have := (b5 e he).1 i hi; omega,
           fun i hi => by have := (b5 e he).2 i hi; omega⟩

theorem AddChannel_inv (g : Graph) (c : Channel) (hi : AddrInv g) :
    AddrInv (AddChannel g c) := by
  obtain ⟨f1, f2, f3, f4, f5, f6, f7, f8, f9, f10, f11, f12⟩ :=
    AddChannel_fields g c
  unfold AddrInv
  rw [f4, f6]
  intro p hp
  rcases mem_mapSet hp with hp | hp
  · subst hp
    simp [lookup_mapSet_self]
  · exact lookup_isSome_mapSet _ _ _ _ (hi p hp)

theorem AddBroker_wf (g : Graph) (b : Broker) (hw : WF g) :
    WF (AddBroker g b) := by
  obtain ⟨f1, f2, f3, f4, f5, f6, f7, f8, f9, f10, f11, f12⟩ :=
    AddBroker_fields g b
  obtain ⟨b1, b2, b3, b4, b5⟩ := hw
  unfold WF Below
  rw [f1, f3, f4, f7, f8, f10]
  refine ⟨?_, ?_, ?_, ?_, ?_⟩
  · exact List.forall_mem_cons.2
      ⟨by omega, fun p hp => by have := b1 p hp; omega⟩
  · intro i hi
    have := b2 i hi
    omega
  · refine List.forall_mem_append.2
      ⟨fun p hp => by have := b3 p hp; omega, ?_⟩
    intro p hp
    simp at hp
    simp [hp]
  · intro p hp
    rcases mem_mapSet hp with hp | hp
    · simp [hp]
    · have := b4 p hp
      omega
  · intro e he
    exact ⟨fun i hi => by have := (b5 e he).1 i hi; omega,
           fun i hi => by have := (b5 e he).2 i hi; omega⟩

theorem AddBroker_inv (g : Graph) (b : Broker) (hi : AddrInv g) :
    AddrInv (AddBroker g b) := by
  obtain ⟨f1, f2, f3, f4, f5, f6, f7, f8, f9, f10, f11, f12⟩ :=
    AddBroker_fields g b
  unfold AddrInv
  rw [f4, f6]
  intro p hp
  rcases mem_mapSet hp with hp | hp
  · subst hp
    simp [lookup_mapSet_self]
  · exact lookup_isSome_mapSet _ _ _ _ (hi p hp)

theorem AddSource_wf (g : Graph) (s : SourceType) (hw : WF g) :
    WF (AddSource g s) := by
  obtain ⟨b1, b2, b3, b4, b5⟩ := hw
  by_cases hs : sinkDNS s = ""
  · obtain ⟨f1, f2, f3, f4, f5, f6, f7, f8, f9, f10, f11, f12⟩ :=
      AddSource_fields_nosink g s hs
    unfold WF Below
    rw [f1, f2, f3, f4, f5, f8]
    refine ⟨?_, ?_, ?_, ?_, ?_⟩
    · exact List.forall_mem_cons.2
        ⟨by omega, fun p hp => by have := b1 p hp; omega⟩
    · refine List.forall_mem_append.2
        ⟨fun i hi => by have := b2 i hi; omega, ?_⟩
      intro i hi
      simp at hi
      omega
    · intro p hp
      have := b3 p hp
      omega
    · intro p hp
      rcases mem_mapSet hp with hp | hp
      · simp [hp]
      · have := b4 p hp
        omega
    · intro e he
      exact ⟨fun i hi => by have := (b5 e he).1 i hi; omega,
             fun i hi => by have := (b5 e he).2 i hi; omega⟩
  · cases hd : g.dnsToKey.lookup (sinkDNS s) with
    | none =>
      obtain ⟨f1, f2, f3, f4, f5, f6, f7, f8, f9, f10, f11, f12⟩ :=
        AddSource_fields_miss g s hs hd
      unfold WF Below
      rw [f1, f2, f3, f4, f5, f8]
      refine ⟨?_, ?_, ?_, ?_, ?_⟩
      · refine List.forall_mem_cons.2 ⟨by omega, ?_⟩
        exact List.forall_mem_cons.2
          ⟨by omega, fun p hp => by have := b1 p hp; omega⟩
      · refine List.forall_mem_append.2 ⟨?_, ?_⟩
        · refine List.forall_mem_append.2
            ⟨fun i hi => by have := b2 i hi; omega, ?_⟩
          intro i hi
          simp at hi
          omega
        · intro i hi
          simp at hi
          omega
      · intro p hp
        have := b3 p hp
        omega
      · intro p hp
        rcases mem_mapSet hp with hp | hp
        · simp [hp]
        · have := b4 p hp
          omega
      · refine List.forall_mem_append.2 ⟨?_, ?_⟩
        · intro e he
          exact ⟨fun i hi => by have := (b5 e he).1 i hi; omega,
                 fun i hi => by have := (b5 e he).2 i hi; omega⟩
        · intro e he
          simp at he
          subst he
          exact ⟨fun i hi => by simp at hi; omega,
                 fun i hi => by simp at hi; omega⟩
    | some bk =>
      cases hbn : (mapSet g.nodes
          (gvkKey (apiVersionGVK s.apiVersion s.kind) s.name)
          g.fresh).lookup bk with
      | none =>
        obtain ⟨f1, f2, f3, f4, f5, f6, f7, f8, f9, f10, f11, f12⟩ :=
          AddSource_fields_fallback g s bk hs hd hbn
        unfold WF Below
        rw [f1, f2, f3, f4, f5, f8]
        refine ⟨?_, ?_, ?_, ?_, ?_⟩
        · refine List.forall_mem_cons.2 ⟨by omega, ?_⟩
          exact List.forall_mem_cons.2
            ⟨by omega, fun p hp => by have := b1 p hp; omega⟩
        · refine List.forall_mem_append.2 ⟨?_, ?_⟩
          · refine List.forall_mem_append.2
              ⟨fun i hi => by have := b2 i hi; omega, ?_⟩
            intro i hi
            simp at hi
            omega
          · intro i hi
            simp at hi
            omega
        · intro p hp
          have := b3 p hp
          omega
        · intro p hp
          rcases mem_mapSet hp with hp | hp
          · simp [hp]
          · have := b4 p hp
            omega
        · refine List.forall_mem_append.2 ⟨?_, ?_⟩
          · intro e he
            exact ⟨fun i hi => by have := (b5 e he).1 i hi; omega,
                   fun i hi => by have := (b5 e he).2 i hi; omega⟩
          · intro e he
            simp at he
            subst he
            exact ⟨fun i hi => by simp at hi; omega,
                   fun i hi => by simp at hi; omega⟩
      | some bn =>
        obtain ⟨f1, f2, f3, f4, f5, f6, f7, f8, f9, f10, f11, f12⟩ :=
          AddSource_fields_hit g s bk bn hs hd hbn
        have hbnlt : bn < g.fresh + 1 := by
          rcases mem_mapSet (lookup_mem hbn) with hm | hm
          · simp at hm
            omega
          · have := b4 _ hm
            omega
        unfold WF Below
        rw [f1, f2, f3, f4, f5, f8]
        refine ⟨?_, ?_, ?_, ?_, ?_⟩
        · exact List.forall_mem_cons.2
            ⟨by omega, fun p hp => by have := b1 p hp; omega⟩
        · refine List.forall_mem_append.2
            ⟨fun i hi => by have := b2 i hi; omega, ?_⟩
          intro i hi
          simp at hi
          omega
        · intro p hp
          have := b3 p hp
          omega
        · intro p hp
          rcases mem_mapSet hp with hp | hp
          · simp [hp]
          · have := b4 p hp
            omega
        · refine List.forall_mem_append.2 ⟨?_, ?_⟩
          · intro e he
            exact ⟨fun i hi => by have := (b5 e he).1 i hi; omega,
                   fun i hi => by have := (b5 e he).2 i hi; omega⟩
          · intro e he
            simp at he
            subst he
            exact ⟨fun i hi => by simp at hi; omega,
                   fun i hi => by simp at hi; omega⟩

theorem AddSource_inv (g : Graph) (s : SourceType) (hi : AddrInv g) :
    AddrInv (AddSource g s) := by
  have main : ∀ (nodes2 : List (String × Nat)),
      (AddSource g s).dnsToKey = g.dnsToKey →
      (AddSource g s).nodes
        = mapSet g.nodes (gvkKey (apiVersionGVK s.apiVersion s.kind) s.name)
            g.fresh →
      AddrInv (AddSource g s) := by
    intro _ hdns hnodes
    unfold AddrInv
    rw [hdns, hnodes]
    intro p hp
    exact lookup_isSome_mapSet _ _ _ _ (hi p hp)
  by_cases hs : sinkDNS s = ""
  · obtain ⟨f1, f2, f3, f4, f5, f6, f7, f8, f9, f10, f11, f12⟩ :=
      AddSource_fields_nosink g s hs
    exact main [] f7 f3
  · cases hd : g.dnsToKey.lookup (sinkDNS s) with
    | none =>
      obtain ⟨f1, f2, f3, f4, f5, f6, f7, f8, f9, f10, f11, f12⟩ :=
        AddSource_fields_miss g s hs hd
      exact main [] f7 f3
    | some bk =>
      cases hbn : (mapSet g.nodes
          (gvkKey (apiVersionGVK s.apiVersion s.kind) s.name)
          g.fresh).lookup bk with
      | none =>
        obtain ⟨f1, f2, f3, f4, f5, f6, f7, f8, f9, f10, f11, f12⟩ :=
          AddSource_fields_fallback g s bk hs hd hbn
        exact main [] f7 f3
      | some bn =>
        obtain ⟨f1, f2, f3, f4, f5, f6, f7, f8, f9, f10, f11, f12⟩ :=
          AddSource_fields_hit g s bk bn hs hd hbn
        exact main [] f7 f3

theorem below_transport {g g2 : Graph} {n : Nat} (h : Below g n)
    (hnn : ∀ p ∈ g2.nodeNames, p ∈ g.nodeNames ∨ p.1 < n)
    (htn : g2.topNodes = g.topNodes) (hsn : g2.sgNodes = g.sgNodes)
    (hns : g2.nodes = g.nodes) (hed : g2.edges = g.edges) : Below g2 n := by
  obtain ⟨b1, b2, b3, b4, b5⟩ := h
  refine ⟨?_, ?_, ?_, ?_, ?_⟩
  · intro p hp
    rcases hnn p hp with hp | hp
    · exact b1 p hp
    · exact hp
  · rw [htn]
    exact b2
  · rw [hsn]
    exact b3
  · rw [hns]
    exact b4
  · rw [hed]
    exact b5

theorem newEdgeColor_frame (g : Graph) :
    (newEdgeColor g).2.fresh = g.fresh ∧
    (newEdgeColor g).2.nodeNames = g.nodeNames ∧
    (newEdgeColor g).2.nodes = g.nodes ∧
    (newEdgeColor g).2.subgraphs = g.subgraphs ∧
    (newEdgeColor g).2.dnsToKey = g.dnsToKey ∧
    (newEdgeColor g).2.topNodes = g.topNodes ∧
    (newEdgeColor g).2.sgNodes = g.sgNodes ∧
    (newEdgeColor g).2.edges = g.edges ∧
    (newEdgeColor g).2.sgFresh = g.sgFresh ∧
    (newEdgeColor g).2.topSubgraphs = g.topSubgraphs ∧
    (newEdgeColor g).2.rainbowEdge = g.rainbowEdge := by
  unfold newEdgeColor
  split <;> simp

theorem AddSubscription_wf (g : Graph) (s : Subscription) (hw : WF g) :
    WF (AddSubscription g s) := by
  obtain ⟨b1, b2, b3, b4, b5⟩ := hw
  obtain ⟨gmid, m1, m2, m3, m4, m5, m6, m7, m8, m9, m10, mm, meq⟩ :=
    AddSubscription_proj g s
  have hwmid : WF gmid := by
    unfold WF Below
    rw [m1, m2, m3]
    have hcore :
        (∀ p ∈ (g.fresh, "Subscription " ++ s.name) :: g.nodeNames,
          p.1 < g.fresh + 1) ∧
        (∀ p ∈ mapSet g.nodes (subscriptionKey s.name) g.fresh,
          p.2 < g.fresh + 1) ∧
        (∀ e ∈ g.edges,
          (∀ i, e.src = some i → i < g.fresh + 1) ∧
          (∀ i, e.dst = some i → i < g.fresh + 1)) := by
      refine ⟨List.forall_mem_cons.2
        ⟨by omega, fun p hp => by have := b1 p hp; omega⟩, ?_, ?_⟩
      · intro p hp
        rcases mem_mapSet hp with hp | hp
        · simp [hp]
        · have := b4 p hp
          omega
      · intro e he
        exact ⟨fun i hi => by have := (b5 e he).1 i hi; omega,
               fun i hi => by have := (b5 e he).2 i hi; omega⟩
    cases hsg : g.subgraphs.lookup (gvkKey (refGVK s.channel) s.channel.name)
      with
    | none =>
      simp only [hsg] at mm
      rw [mm.1, mm.2, m6]
      refine ⟨hcore.1, ?_, fun p hp => by have := b3 p hp; omega,
              hcore.2.1, hcore.2.2⟩
      refine List.forall_mem_append.2
        ⟨fun i hi => by have := b2 i hi; omega, ?_⟩
      intro i hi
      simp at hi
      omega
    | some sgid =>
      simp only [hsg] at mm
      rw [mm.1, mm.2, m6]
      refine ⟨hcore.1, fun i hi => by have := b2 i hi; omega, ?_,
              hcore.2.1, hcore.2.2⟩
      refine List.forall_mem_append.2
        ⟨fun p hp => by have := b3 p hp; omega, ?_⟩
      intro p hp
      simp at hp
      simp [hp]
  rw [meq]
  simp only
  obtain ⟨hwq, hq1⟩ := gocs_wf s.subscriber hwmid
  obtain ⟨qf1, qe, qsgN, qsub, qdns, qsgF, qtops, qec, qre, qpres, qpresS⟩ :=
    gocs_frame gmid s.subscriber
  have hfg : g.fresh < (getOrCreateSubscriber gmid s.subscriber).2.fresh := by
    rw [m1] at qf1
    omega
  have hwf4 : WF (addEdge (getOrCreateSubscriber gmid s.subscriber).2
      { src := some g.fresh,
        dst := some (getOrCreateSubscriber gmid s.subscriber).1,
        attrs := [("dir", "both")], colorIdx := none }) := by
    apply below_addEdge hwq
    · intro i hi
      simp at hi
      omega
    · intro i hi
      simp at hi
      subst hi
      exact hq1
  set g4 := addEdge (getOrCreateSubscriber gmid s.subscriber).2
      { src := some g.fresh,
        dst := some (getOrCreateSubscriber gmid s.subscriber).1,
        attrs := [("dir", "both")], colorIdx := none } with hg4
  obtain ⟨r1, r2, r3, r4, r5, r6, r7, r8, r9, r10, r11, r12, r13⟩ :=
    gorep_frame g4 s.reply
  rcases hgr : getOrCreateReply g4 s.reply with ⟨o, g5⟩
  rw [hgr] at r1 r2 r3 r4 r5 r6 r7 r8 r9 r10 r11 r12 r13
  have hwf5 : WF g5 := by
    apply below_transport (below_mono hwf4 r11) _ r4 r5 r1 r6
    intro p hp
    rcases r12 p hp with hp | hp
    · exact Or.inl hp
    · right
      omega
  have hg4fresh : g.fresh < g4.fresh := by
    rw [hg4]
    exact hfg
  cases o with
  | none => exact hwf5
  | some rep =>
    obtain ⟨n1, n2, n3, n4, n5, n6, n7, n8, n9, n10, n11⟩ :=
      newEdgeColor_frame g5
    have hwc : WF (newEdgeColor g5).2 := by
      apply @below_mono _ g5.fresh _
      · exact below_transport hwf5 (fun p hp => Or.inl (n2 ▸ hp)) n6 n7 n3 n8
      · rw [n1]
    apply below_addEdge hwc
    · intro i hi
      simp at hi
      subst hi
      rw [n1]
      have h1 : g4.fresh ≤ g5.fresh := r11
      omega
    · intro i hi
      simp at hi
      subst hi
      rw [n1]
      obtain ⟨k, hk⟩ := r13 rep rfl
      have h2 : rep < g4.fresh := hwf4.2.2.2.1 _ (lookup_mem hk)
      have h3 : g4.fresh ≤ g5.fresh := r11
      omega

theorem AddSubscription_inv (g : Graph) (s : Subscription) (hi : AddrInv g) :
    AddrInv (AddSubscription g s) := by
  obtain ⟨gmid, m1, m2, m3, m4, m5, m6, m7, m8, m9, m10, mm, meq⟩ :=
    AddSubscription_proj g s
  rw [meq]
  simp only
  obtain ⟨qf1, qe, qsgN, qsub, qdns, qsgF, qtops, qec, qre, qpres, qpresS⟩ :=
    gocs_frame gmid s.subscriber
  set g4 := addEdge (getOrCreateSubscriber gmid s.subscriber).2
      { src := some g.fresh,
        dst := some (getOrCreateSubscriber gmid s.subscriber).1,
        attrs := [("dir", "both")], colorIdx := none } with hg4
  obtain ⟨r1, r2, r3, r4, r5, r6, r7, r8, r9, r10, r11, r12, r13⟩ :=
    gorep_frame g4 s.reply
  have hg4nodes : g4.nodes = (getOrCreateSubscriber gmid s.subscriber).2.nodes
    := rfl
  have hg4dns : g4.dnsToKey = g.dnsToKey := by
    rw [hg4]
    show (getOrCreateSubscriber gmid s.subscriber).2.dnsToKey = g.dnsToKey
    rw [qdns, m5]
  have hpres : ∀ k, (g.nodes.lookup k).isSome → (g4.nodes.lookup k).isSome
    := by
    intro k hk
    rw [hg4nodes]
    apply qpresS
    rw [m3]
    exact lookup_isSome_mapSet _ _ _ _ hk
  rcases hgr : getOrCreateReply g4 s.reply with ⟨o, g5⟩
  rw [hgr] at r1 r2 r3 r4 r5 r6 r7 r8 r9 r10 r11 r12 r13
  cases o with
  | none =>
    unfold AddrInv
    rw [r1, r2, hg4dns]
    intro p hp
    exact hpres p.2 (hi p hp)
  | some rep =>
    obtain ⟨n1, n2, n3, n4, n5, n6, n7, n8, n9, n10, n11⟩ :=
      newEdgeColor_frame g5
    unfold AddrInv
    show ∀ p ∈ (addEdge (newEdgeColor g5).2 _).dnsToKey,
      (((addEdge (newEdgeColor g5).2 _).nodes).lookup p.2).isSome
    intro p hp
    have hdns : (addEdge (newEdgeColor g5).2
        { src := some g.fresh, dst := some rep, attrs := [("dir", "forward")],
          colorIdx := (newEdgeColor g5).1 }).dnsToKey = g.dnsToKey := by
      show (newEdgeColor g5).2.dnsToKey = g.dnsToKey
      rw [n5, r2, hg4dns]
    have hnds : (addEdge (newEdgeColor g5).2
        { src := some g.fresh, dst := some rep, attrs := [("dir", "forward")],
          colorIdx := (newEdgeColor g5).1 }).nodes = g4.nodes := by
      show (newEdgeColor g5).2.nodes = g4.nodes
      rw [n3, r1]
    rw [hdns] at hp
    rw [hnds]
    exact hpres p.2 (hi p hp)

theorem AddTrigger_wf (g : Graph) (t : Trigger) (hw : WF g) :
    WF (AddTrigger g t) := by
  obtain ⟨b1, b2, b3, b4, b5⟩ := hw
  cases hbk : g.nodes.lookup (brokerKey t.broker) with
  | some bn =>
    obtain ⟨gmid, m1, m2, m3, m4, m5, m6, m7, m8, m9, m10, mm, meq⟩ :=
      AddTrigger_proj_hit g t bn hbk
    have hwmid : WF gmid := by
      unfold WF Below
      rw [m1, m2, m3, m6]
      have hNN : ∀ p ∈ (g.fresh, "Trigger " ++ t.name) :: g.nodeNames,
          p.1 < g.fresh + 1 := List.forall_mem_cons.2
        ⟨by omega, fun p hp => by have := b1 p hp; omega⟩
      have hND : ∀ p ∈ mapSet g.nodes (triggerKey t.name) g.fresh,
          p.2 < g.fresh + 1 := by
        intro p hp
        rcases mem_mapSet hp with hp | hp
        · simp [hp]
        · have := b4 p hp
          omega
      have hED : ∀ e ∈ g.edges,
          (∀ i, e.src = some i → i < g.fresh + 1) ∧
          (∀ i, e.dst = some i → i < g.fresh + 1) := by
        intro e he
        exact ⟨fun i hi => by have := (b5 e he).1 i hi; omega,
               fun i hi => by have := (b5 e he).2 i hi; omega⟩
      cases hsg : g.subgraphs.lookup (brokerKey t.broker) with
      | none =>
        simp only [hsg] at mm
        rw [mm.1, mm.2]
        refine ⟨hNN, ?_, fun p hp => by have := b3 p hp; omega, hND, hED⟩
        refine List.forall_mem_append.2
          ⟨fun i hi => by have := b2 i hi; omega, ?_⟩
        intro i hi
        simp at hi
        omega
      | some sgid =>
        simp only [hsg] at mm
        rw [mm.1, mm.2]
        refine ⟨hNN, fun i hi => by have := b2 i hi; omega, ?_, hND, hED⟩
        refine List.forall_mem_append.2
          ⟨fun p hp => by have := b3 p hp; omega, ?_⟩
        intro p hp
        simp at hp
        simp [hp]
    rw [meq]
    simp only
    obtain ⟨hwq, hq1⟩ := gocs_wf t.subscriber hwmid
    obtain ⟨qf1, _, _, _, _, _, _, _, _, _, _⟩ := gocs_frame gmid t.subscriber
    apply below_addEdge hwq
    · intro i hi
      simp at hi
      subst hi
      rw [m1] at qf1
      omega
    · intro i hi
      simp at hi
      subst hi
      exact hq1
  | none =>
    obtain ⟨gmid, m1, m2, m3, m4, m5, m6, m7, m8, m9, m10, mm, meq⟩ :=
      AddTrigger_proj_miss g t hbk
    have hwmid : WF gmid := by
      unfold WF Below
      rw [m1, m2, m3, m6]
      have hNN : ∀ p ∈ (g.fresh + 1, "Trigger " ++ t.name)
          :: (g.fresh, "UnknownBroker " ++ t.broker) :: g.nodeNames,
          p.1 < g.fresh + 2 := by
        refine List.forall_mem_cons.2 ⟨by omega, ?_⟩
        exact List.forall_mem_cons.2
          ⟨by omega, fun p hp => by have := b1 p hp; omega⟩
      have hND : ∀ p ∈ mapSet (mapSet g.nodes (brokerKey t.broker) g.fresh)
          (triggerKey t.name) (g.fresh + 1), p.2 < g.fresh + 2 := by
        intro p hp
        rcases mem_mapSet hp with hp | hp
        · simp [hp]
        · rcases mem_mapSet hp with hp | hp
          · simp [hp]
          · have := b4 p hp
            omega
      have hED : ∀ e ∈ g.edges,
          (∀ i, e.src = some i → i < g.fresh + 2) ∧
          (∀ i, e.dst = some i → i < g.fresh + 2) := by
        intro e he
        exact ⟨fun i hi => by have := (b5 e he).1 i hi; omega,
               fun i hi => by have := (b5 e he).2 i hi; omega⟩
      cases hsg : g.subgraphs.lookup (brokerKey t.broker) with
      | none =>
        simp only [hsg] at mm
        rw [mm.1, mm.2]
        refine ⟨hNN, ?_, fun p hp => by have := b3 p hp; omega, hND, hED⟩
        refine List.forall_mem_append.2 ⟨?_, ?_⟩
        · refine List.forall_mem_append.2
            ⟨fun i hi => by have := b2 i hi; omega, ?_⟩
          intro i hi
          simp at hi
          omega
        · intro i hi
          simp at hi
          omega
      | some sgid =>
        simp only [hsg] at mm
        rw [mm.1, mm.2]
        refine ⟨hNN, ?_, ?_, hND, hED⟩
        · refine List.forall_mem_append.2
            ⟨fun i hi => by have := b2 i hi; omega, ?_⟩
          intro i hi
          simp at hi
          omega
        · refine List.forall_mem_append.2
            ⟨fun p hp => by have := b3 p hp; omega, ?_⟩
          intro p hp
          simp at hp
          simp [hp]
    rw [meq]
    simp only
    obtain ⟨hwq, hq1⟩ := gocs_wf t.subscriber hwmid
    obtain ⟨qf1, _, _, _, _, _, _, _, _, _, _⟩ := gocs_frame gmid t.subscriber
    apply below_addEdge hwq
    · intro i hi
      simp at hi
      subst hi
      rw [m1] at qf1
      omega
    · intro i hi
      simp at hi
      subst hi
      exact hq1

theorem AddTrigger_inv (g : Graph) (t : Trigger) (hi : AddrInv g) :
    AddrInv (AddTrigger g t) := by
  cases hbk : g.nodes.lookup (brokerKey t.broker) with
  | some bn =>
    obtain ⟨gmid, m1, m2, m3, m4, m5, m6, m7, m8, m9, m10, mm, meq⟩ :=
      AddTrigger_proj_hit g t bn hbk
    rw [meq]
    simp only
    obtain ⟨_, _, _, _, qdns, _, _, _, _, _, qpresS⟩ :=
      gocs_frame gmid t.subscriber
    unfold AddrInv
    show ∀ p ∈ (getOrCreateSubscriber gmid t.subscriber).2.dnsToKey,
      (((getOrCreateSubscriber gmid t.subscriber).2.nodes).lookup p.2).isSome
    rw [qdns, m5]
    intro p hp
    apply qpresS
    rw [m3]
    exact lookup_isSome_mapSet _ _ _ _ (hi p hp)
  | none =>
    obtain ⟨gmid, m1, m2, m3, m4, m5, m6, m7, m8, m9, m10, mm, meq⟩ :=
      AddTrigger_proj_miss g t hbk
    rw [meq]
    simp only
    obtain ⟨_, _, _, _, qdns, _, _, _, _, _, qpresS⟩ :=
      gocs_frame gmid t.subscriber
    unfold AddrInv
    show ∀ p ∈ (getOrCreateSubscriber gmid t.subscriber).2.dnsToKey,
      (((getOrCreateSubscriber gmid t.subscriber).2.nodes).lookup p.2).isSome
    rw [qdns, m5]
    intro p hp
    apply qpresS
    rw [m3]
    exact lookup_isSome_mapSet _ _ _ _
      (lookup_isSome_mapSet _ _ _ _ (hi p hp))

theorem AddKnService_wf (g : Graph) (s : KnService) (hw : WF g) :
    WF ((AddKnService g s).getD g) := by
  cases hc : s.containers with
  | nil =>
    rw [AddKnService_none g s hc]
    exact hw
  | cons c cs =>
    cases hk : g.nodes.lookup (servingKey s.kind s.name) with
    | some svc =>
      rw [AddKnService_hit g s svc c cs hk hc]
      have hsvc : svc < g.fresh := hw.2.2.2.1 _ (lookup_mem hk)
      exact ((knFold_frame svc c.env g).2.2.2.2.2.2.2.2.2) hw hsvc
    | none =>
      obtain ⟨gmid, m1, m2, m3, m4, m5, m6, m7, m8, m9, m10, m11, m12, meq⟩ :=
        AddKnService_miss_proj g s c cs hk hc
      rw [meq]
      obtain ⟨b1, b2, b3, b4, b5⟩ := hw
      have hwmid : WF gmid := by
        unfold WF Below
        rw [m1, m2, m3, m4, m7, m8]
        refine ⟨List.forall_mem_cons.2
          ⟨by omega, fun p hp => by have := b1 p hp; omega⟩, ?_, ?_, ?_, ?_⟩
        · refine List.forall_mem_append.2
            ⟨fun i hi => by have := b2 i hi; omega, ?_⟩
          intro i hi
          simp at hi
          omega
        · intro p hp
          have := b3 p hp
          omega
        · intro p hp
          rcases mem_mapSet hp with hp | hp
          · simp [hp]
          · have := b4 p hp
            omega
        · intro e he
          exact ⟨fun i hi => by have := (b5 e he).1 i hi; omega,
                 fun i hi => by have := (b5 e he).2 i hi; omega⟩
      exact ((knFold_frame g.fresh c.env gmid).2.2.2.2.2.2.2.2.2) hwmid
        (by omega)

theorem AddKnService_inv (g : Graph) (s : KnService) (hi : AddrInv g) :
    AddrInv ((AddKnService g s).getD g) := by
  cases hc : s.containers with
  | nil =>
    rw [AddKnService_none g s hc]
    exact hi
  | cons c cs =>
    cases hk : g.nodes.lookup (servingKey s.kind s.name) with
    | some svc =>
      rw [AddKnService_hit g s svc c cs hk hc]
      obtain ⟨f1, f2, f3, _⟩ := knFold_frame svc c.env g
      unfold AddrInv
      simp only [Option.getD_some]
      rw [f1, f3]
      exact hi
    | none =>
      obtain ⟨gmid, m1, m2, m3, m4, m5, m6, m7, m8, m9, m10, m11, m12, meq⟩ :=
        AddKnService_miss_proj g s c cs hk hc
      rw [meq]
      obtain ⟨f1, f2, f3, _⟩ := knFold_frame g.fresh c.env gmid
      unfold AddrInv
      simp only [Option.getD_some]
      rw [f1, f3, m3, m6]
      intro p hp
      exact lookup_isSome_mapSet _ _ _ _ (hi p hp)

theorem AddSequence_wf (g : Graph) (sq : Sequence) (hw : WF g) :
    WF (AddSequence g sq) := by
  obtain ⟨b1, b2, b3, b4, b5⟩ := hw
  obtain ⟨g6, m1, m2, m3, m4, m5, m6, m7, m8, m9, m10, m11, m12, meq⟩ :=
    AddSequence_proj g sq
  have hw6 : WF g6 := by
    unfold WF Below
    rw [m1, m2, m3, m6, m7, m10]
    refine ⟨List.forall_mem_cons.2
      ⟨by omega, fun p hp => by have := b1 p hp; omega⟩, ?_, ?_, ?_, ?_⟩
    · intro i hi
      have := b2 i hi
      omega
    · refine List.forall_mem_append.2
        ⟨fun p hp => by have := b3 p hp; omega, ?_⟩
      intro p hp
      simp at hp
      simp [hp]
    · intro p hp
      rcases mem_mapSet hp with hp | hp
      · simp [hp]
      · have := b4 p hp
        omega
    · intro e he
      exact ⟨fun i hi => by have := (b5 e he).1 i hi; omega,
             fun i hi => by have := (b5 e he).2 i hi; omega⟩
  obtain ⟨s1, s2, s3, s4, s5, s6, s7, s8, s9, s10, _⟩ :=
    addSeqSteps_spec sq.name g.sgFresh sq.steps g6 g.fresh 0
  obtain ⟨hwr, hr1⟩ := s10 hw6 (by omega)
  rw [meq]
  simp only
  set r := addSeqSteps sq.name g.sgFresh g6 g.fresh 0 sq.steps with hr
  have hfinal : ∀ g7 : Graph, WF g7 →
      WF (gAddSubgraph
        { g7 with
            subgraphs := mapSet g7.subgraphs (sequenceKey sq.name) g.sgFresh }
        g.sgFresh) := by
    intro g7 hw7
    exact below_transport hw7 (fun p hp => Or.inl hp) rfl rfl rfl rfl
  cases hrep : sq.reply with
  | none => exact hfinal r.2 hwr
  | some rep =>
    apply hfinal
    have hwc : WF (addEdge
        (sgAddNode (nodeSet (newNode r.2
            ("Reply " ++ trimSuffix sq.statusAddress "/")).2
          r.2.fresh "label" "Reply") g.sgFresh r.2.fresh)
        { src := some r.1, dst := some r.2.fresh, attrs := [],
          colorIdx := none }) := by
      apply below_addEdge
      · obtain ⟨w1, w2, w3, w4, w5⟩ := hwr
        refine ⟨?_, ?_, ?_, ?_, ?_⟩
        · exact List.forall_mem_cons.2
            ⟨by simp [newNode, nodeSet, sgAddNode, addEdge],
             fun p hp => by
               have := w1 p hp
               simp [newNode, nodeSet, sgAddNode, addEdge]
               omega⟩
        · intro i hi
          have := w2 i hi
          simp [newNode, nodeSet, sgAddNode, addEdge]
          omega
        · refine List.forall_mem_append.2 ⟨?_, ?_⟩
          · intro p hp
            have := w3 p hp
            simp [newNode, nodeSet, sgAddNode, addEdge]
            omega
          · intro p hp
            simp at hp
            simp [newNode, nodeSet, sgAddNode, addEdge, hp]
        · intro p hp
          have := w4 p hp
          simp [newNode, nodeSet, sgAddNode, addEdge]
          omega
        · intro e he
          have := w5 e he
          refine ⟨fun i hi => ?_, fun i hi => ?_⟩
          · have := this.1 i hi
            simp [newNode, nodeSet, sgAddNode, addEdge]
            omega
          · have := this.2 i hi
            simp [newNode, nodeSet, sgAddNode, addEdge]
            omega
      · intro i hi
        simp at hi
        subst hi
        simp [newNode, nodeSet, sgAddNode, addEdge]
        omega
      · intro i hi
        simp at hi
        subst hi
        simp [newNode, nodeSet, sgAddNode, addEdge]
    cases hrk : (addEdge
        (sgAddNode (nodeSet (newNode r.2
            ("Reply " ++ trimSuffix sq.statusAddress "/")).2
          r.2.fresh "label" "Reply") g.sgFresh r.2.fresh)
        { src := some r.1, dst := some r.2.fresh, attrs := [],
          colorIdx := none }).nodes.lookup (gvkKey (refGVK rep) rep.name) with
    | none =>
      simp only [newNode]
      simp only [newNode] at hrk
      rw [hrk]
      exact hwc
    | some rn =>
      simp only [newNode]
      simp only [newNode] at hrk
      rw [hrk]
      apply below_addEdge hwc
      · intro i hi
        simp at hi
        subst hi
        simp [newNode, nodeSet, sgAddNode, addEdge]
      · intro i hi
        simp at hi
        subst hi
        exact hwc.2.2.2.1 _ (lookup_mem hrk)

theorem AddSequence_inv (g : Graph) (sq : Sequence) (hi : AddrInv g) :
    AddrInv (AddSequence g sq) := by
  obtain ⟨g6, m1, m2, m3, m4, m5, m6, m7, m8, m9, m10, m11, m12, meq⟩ :=
    AddSequence_proj g sq
  obtain ⟨s1, s2, s3, s4, s5, s6, s7, s8, s9, s10, _⟩ :=
    addSeqSteps_spec sq.name g.sgFresh sq.steps g6 g.fresh 0
  rw [meq]
  simp only
  set r := addSeqSteps sq.name g.sgFresh g6 g.fresh 0 sq.steps with hr
  have hdns : r.2.dnsToKey
      = mapSet g.dnsToKey (trimSuffix sq.statusAddress "/")
          (sequenceKey sq.name) := by
    rw [s2, m5]
  have hmain : ∀ p ∈ r.2.dnsToKey, ((r.2.nodes).lookup p.2).isSome := by
    rw [hdns]
    intro p hp
    rcases mem_mapSet hp with hp | hp
    · subst hp
      apply s8
      rw [m3]
      simp [lookup_mapSet_self]
    · apply s8
      rw [m3]
      exact lookup_isSome_mapSet _ _ _ _ (hi p hp)
  cases hrep : sq.reply with
  | none =>
    show ∀ p ∈ r.2.dnsToKey, ((r.2.nodes).lookup p.2).isSome
    exact hmain
  | some rep =>
    cases hrk : (addEdge
        (sgAddNode (nodeSet (newNode r.2
            ("Reply " ++ trimSuffix sq.statusAddress "/")).2
          r.2.fresh "label" "Reply") g.sgFresh r.2.fresh)
        { src := some r.1, dst := some r.2.fresh, attrs := [],
          colorIdx := none }).nodes.lookup (gvkKey (refGVK rep) rep.name) with
    | none =>
      simp only [newNode]
      simp only [newNode] at hrk
      rw [hrk]
      show ∀ p ∈ r.2.dnsToKey, ((r.2.nodes).lookup p.2).isSome
      exact hmain
    | some rn =>
      simp only [newNode]
      simp only [newNode] at hrk
      rw [hrk]
      show ∀ p ∈ r.2.dnsToKey, ((r.2.nodes).lookup p.2).isSome
      exact hmain

theorem New_wf (ns : String) : WF (New ns) := by
  unfold WF Below New
  refine ⟨?_, ?_, ?_, ?_, ?_⟩ <;> intro x hx <;> simp at hx

theorem New_inv (ns : String) : AddrInv (New ns) := by
  unfold AddrInv New
  intro p hp
  simp at hp

theorem applyOp_wf (g : Graph) (op : Op) (hw : WF g) : WF (applyOp g op) := by
  cases op with
  | channel c => exact AddChannel_wf g c hw
  | subscription s => exact AddSubscription_wf g s hw
  | broker b => exact AddBroker_wf g b hw
  | source s => exact AddSource_wf g s hw
  | trigger t => exact AddTrigger_wf g t hw
  | knService s => exact AddKnService_wf g s hw
  | sequence q => exact AddSequence_wf g q hw

theorem applyOp_inv (g : Graph) (op : Op) (hi : AddrInv g) :
    AddrInv (applyOp g op) := by
  cases op with
  | channel c => exact AddChannel_inv g c hi
  | subscription s => exact AddSubscription_inv g s hi
  | broker b => exact AddBroker_inv g b hi
  | source s => exact AddSource_inv g s hi
  | trigger t => exact AddTrigger_inv g t hi
  | knService s => exact AddKnService_inv g s hi
  | sequence q => exact AddSequence_inv g q hi

/-- Every builder state reachable in a build pass is well-formed. -/
theorem reachable_wf {g : Graph} (h : Reachable g) : WF g := by
  induction h with
  | new ns => exact New_wf ns
  | step h op ih => exact applyOp_wf _ op ih

/-- Every reachable builder state satisfies the address-index invariant. -/
theorem reachable_inv {g : Graph} (h : Reachable g) : AddrInv g := by
  induction h with
  | new ns => exact New_inv ns
  | step h op ih => exact applyOp_inv _ op ih

theorem gocs_nodeNames (g : Graph) (sub : Option SubscriberSpec) :
    (getOrCreateSubscriber g sub).2.nodeNames = g.nodeNames ∨
    (getOrCreateSubscriber g sub).2.nodeNames
      = (g.fresh, (subscriberKeyLabel sub).2) :: g.nodeNames := by
  cases h : g.nodes.lookup (subscriberKeyLabel sub).1 with
  | some id =>
    rw [gocs_hit h]
    exact Or.inl rfl
  | none =>
    obtain ⟨_, _, h3, _⟩ := gocs_miss_fields h
    exact Or.inr h3

theorem gocs_topNodes (g : Graph) (sub : Option SubscriberSpec) :
    (getOrCreateSubscriber g sub).2.topNodes = g.topNodes ∨
    (getOrCreateSubscriber g sub).2.topNodes = g.topNodes ++ [g.fresh] := by
  cases h : g.nodes.lookup (subscriberKeyLabel sub).1 with
  | some id =>
    rw [gocs_hit h]
    exact Or.inl rfl
  | none =>
    obtain ⟨_, _, _, _, h5, _⟩ := gocs_miss_fields h
    exact Or.inr h5

theorem trigger_name_ne_unknown_broker (a b : String) :
    "Trigger " ++ a ≠ "UnknownBroker " ++ b :=
  string_append_ne _ _ 0 (by decide) (by decide) (by decide) _ _

theorem gvkKey_channel_eq (n : String) :
    gvkKey (apiVersionGVK "eventing.knative.dev/v1alpha1" "Channel") n
      = channelKey n := by
  have h1 : apiVersionGVK "eventing.knative.dev/v1alpha1" "Channel"
      = { group := "eventing.knative.dev", version := "v1alpha1",
          kind := "Channel" } := by decide
  rw [h1]
  show strToLower (("eventing.knative.dev" ++ "/" ++ "v1alpha1" ++ "/"
    ++ "Channel" ++ "/") ++ n) = channelKey n
  rw [strToLower_append, channelKey_nf]
  norm_num [show strToLower ("eventing.knative.dev" ++ "/" ++ "v1alpha1"
    ++ "/" ++ "Channel" ++ "/") = "eventing.knative.dev/v1alpha1/channel/"
    by decide]

/-! ## Claim theorems -/

/-- C5: resolving an absent subscriber spec always yields the single shared
node registered under the key `"?"`: a second resolution with an absent spec,
from any builder state and on behalf of any resource kind (the helper is the
same for subscriptions, triggers and sequence steps), returns the same node as
the first and leaves the state unchanged. -/
theorem C5_absent_subscriber_shared_node (g : Graph) :
    (getOrCreateSubscriber (getOrCreateSubscriber g none).2 none).1
      = (getOrCreateSubscriber g none).1 ∧
    (getOrCreateSubscriber (getOrCreateSubscriber g none).2 none).2
      = (getOrCreateSubscriber g none).2 ∧
    ((getOrCreateSubscriber g none).2).nodes.lookup "?"
      = some (getOrCreateSubscriber g none).1 := by
  cases h : g.nodes.lookup "?" with
  | some id =>
    have h1 : getOrCreateSubscriber g none = (id, g) :=
      @gocs_hit _ none _ h
    have h2 : (getOrCreateSubscriber g none).2 = g := by rw [h1]
    have h3 : (getOrCreateSubscriber g none).1 = id := by rw [h1]
    refine ⟨by rw [h2], by rw [h2]; exact h2, by rw [h2, h3]; exact h⟩
  | none =>
    obtain ⟨f1, f2, f3, f4, _⟩ := @gocs_miss_fields _ none h
    have h2 : ((getOrCreateSubscriber g none).2).nodes.lookup "?"
        = some g.fresh := by
      rw [f4]
      exact lookup_mapSet_self _ _ _
    have h3 : getOrCreateSubscriber ((getOrCreateSubscriber g none).2) none
        = (g.fresh, (getOrCreateSubscriber g none).2) :=
      @gocs_hit _ none _ h2
    refine ⟨?_, ?_, ?_⟩
    · rw [h3, f1]
    · rw [h3]
    · rw [h2, f1]

theorem knFold_no_match (svcId : Nat) (l : List EnvVar) :
    ∀ g : Graph, (∀ e ∈ l, e.name ≠ "SINK" ∧ e.name ≠ "TARGET") →
      l.foldl (knEnvStep svcId) g = g := by
  induction l with
  | nil => intro g _; rfl
  | cons e l ih =>
    intro g h
    have he := h e (List.mem_cons_self e l)
    have hstep : knEnvStep svcId g e = g := by
      unfold knEnvStep
      rw [if_neg]
      push_neg
      exact he
    rw [List.foldl_cons, hstep]
    exact ih g (fun x hx => h x (List.mem_cons_of_mem e hx))

/-- A compute service with an empty container list. -/
def c2Service : KnService :=
  { name := "svc", kind := "Service",
    apiVersion := "serving.knative.dev/v1beta1", containers := [] }

/-- A compute service with one container and no environment entries. -/
def c2ServiceOk : KnService :=
  { name := "svc", kind := "Service",
    apiVersion := "serving.knative.dev/v1beta1",
    containers := [{ env := [] }] }

/-- C2 counterexample: `AddKnService` indexes the first container with no
empty-list check, so a compute service with zero containers makes the build
panic (modelled by `none`) instead of skipping the edge wiring. -/
theorem C2_cex_empty_containers_panics :
    AddKnService (New "default") c2Service = none := by
  decide

/-- C2 (amended): `AddKnService` performs no nil/empty check on the container
list — a service with zero containers aborts the build with an index panic —
but whenever the service has at least one container the operation completes
without aborting. -/
theorem C2_amended_nonempty_no_panic (g : Graph) (s : KnService)
    (h : s.containers ≠ []) : (AddKnService g s).isSome := by
  cases hc : s.containers with
  | nil => exact absurd hc h
  | cons c cs =>
    cases hk : g.nodes.lookup (servingKey s.kind s.name) with
    | some svc =>
      rw [AddKnService_hit g s svc c cs hk hc]
      rfl
    | none =>
      obtain ⟨gmid, _, _, _, _, _, _, _, _, _, _, _, _, meq⟩ :=
        AddKnService_miss_proj g s c cs hk hc
      rw [meq]
      rfl

theorem C2_amended_witness :
    c2ServiceOk.containers ≠ [] ∧
    (AddKnService (New "default") c2ServiceOk).isSome :=
  ⟨by decide, C2_amended_nonempty_no_panic (New "default") c2ServiceOk
    (by decide)⟩

/-- A compute service whose first container names an unresolvable TARGET. -/
def c3Service : KnService :=
  { name := "svc", kind := "Service",
    apiVersion := "serving.knative.dev/v1beta1",
    containers := [{ env := [{ name := "TARGET",
                               value := "http://unknown.example.com/" }] }] }

/-- C3 (code-defect evaluation): on an empty build, adding `c3Service`
allocates the service node (id 0) and the `"UnknownSink"` placeholder (id 1)
and puts the placeholder in the graph, but the one edge added goes from the
service to nil (`none`) — `getOrCreateSink` returns `g.nodes[""]` for the
zero-valued key instead of the placeholder it just created — so the
placeholder stays an orphan and no service→placeholder edge exists. -/
theorem C3_unknown_sink_orphaned_eval :
    ((AddKnService (New "default") c3Service).getD (New "default")).edges
        = [{ src := some 0, dst := none, attrs := [], colorIdx := none }] ∧
    (1, "UnknownSink http://unknown.example.com")
        ∈ ((AddKnService (New "default") c3Service).getD
            (New "default")).nodeNames ∧
    1 ∈ ((AddKnService (New "default") c3Service).getD
        (New "default")).topNodes ∧
    (∀ p ∈ ((AddKnService (New "default") c3Service).getD
        (New "default")).nodes, p.2 ≠ 1) := by
  decide

/-- A channel resource used by several claims below. -/
def c4Channel : Channel :=
  { name := "chan", kind := "Channel",
    apiVersion := "eventing.knative.dev/v1alpha1",
    statusAddress := "http://chan.default.svc.cluster.local/" }

/-- C4 counterexample: repeating `AddChannel` for the same resource constructs
a second node and re-registers the key: the channel key maps to a different
node id after the second call, and two allocations named "Channel chan"
exist. -/
theorem C4_cex_repeat_addchannel :
    (AddChannel (AddChannel (New "default") c4Channel) c4Channel).nodes.lookup
        (channelKey "chan")
      ≠ (AddChannel (New "default") c4Channel).nodes.lookup
          (channelKey "chan") ∧
    ((AddChannel (AddChannel (New "default") c4Channel)
        c4Channel).nodeNames.filter
          (fun p => p.2 == "Channel chan")).length = 2 := by
  decide

/-- C4 (amended): the lookup-guarded paths do reuse the registered node —
subscriber resolution returns the existing node and leaves the state
untouched, `AddKnService` with an already-registered service key (and no
SINK/TARGET entries) returns the state unchanged, and `AddTrigger` keeps an
already-registered broker binding — while the unconditional operations such
as `AddChannel` register a freshly constructed node over the same key. -/
theorem C4_amended_guarded_reuse (g : Graph) (sub : Option SubscriberSpec)
    (s : KnService) (t : Trigger) (c : Channel) (id1 id2 id3 : Nat)
    (co : Container) (cs : List Container)
    (h1 : g.nodes.lookup (subscriberKeyLabel sub).1 = some id1)
    (h2 : g.nodes.lookup (servingKey s.kind s.name) = some id2)
    (hcs : s.containers = co :: cs)
    (henv : ∀ e ∈ co.env, e.name ≠ "SINK" ∧ e.name ≠ "TARGET")
    (h3 : g.nodes.lookup (brokerKey t.broker) = some id3) :
    getOrCreateSubscriber g sub = (id1, g) ∧
    AddKnService g s = some g ∧
    (AddTrigger g t).nodes.lookup (brokerKey t.broker) = some id3 ∧
    (AddChannel g c).nodes.lookup (channelKey c.name) = some g.fresh := by
  refine ⟨gocs_hit h1, ?_, ?_, ?_⟩
  · rw [AddKnService_hit g s id2 co cs h2 hcs]
    rw [knFold_no_match id2 co.env g henv]
  · obtain ⟨gmid, m1, m2, m3, _, _, _, _, _, _, _, mm, meq⟩ :=
      AddTrigger_proj_hit g t id3 h3
    rw [meq]
    simp only
    obtain ⟨_, _, _, _, _, _, _, _, _, qpres, _⟩ :=
      gocs_frame gmid t.subscriber
    show ((getOrCreateSubscriber gmid t.subscriber).2.nodes).lookup
        (brokerKey t.broker) = some id3
    apply qpres
    rw [m3, lookup_mapSet_ne]
    · exact h3
    · exact fun hcon => triggerKey_ne_brokerKey t.name t.broker hcon.symm
  · obtain ⟨_, _, _, f4, _⟩ := AddChannel_fields g c
    rw [f4]
    exact lookup_mapSet_self _ _ _

/-- A builder state with a subscriber node, a service node and a broker node
already registered. -/
def c4Graph : Graph :=
  { fresh := 3, sgFresh := 0,
    nodeNames := [(0, "?"), (1, "svcnode"), (2, "brnode")],
    nodeAttrs := [], sgNames := [], sgAttrs := [], graphAttrs := [],
    nodes := [("?", 0), (servingKey "Service" "svc", 1),
              (brokerKey "br", 2)],
    subgraphs := [], dnsToKey := [], topNodes := [0, 1, 2],
    topSubgraphs := [], sgNodes := [], edges := [], edgeCount := 0,
    rainbowEdge := true }

/-- A trigger naming broker "br". -/
def c4Trigger : Trigger :=
  { name := "trig", broker := "br", filter := none, subscriber := none }

theorem C4_amended_witness :
    getOrCreateSubscriber c4Graph none = (0, c4Graph) ∧
    AddKnService c4Graph c2ServiceOk = some c4Graph ∧
    (AddTrigger c4Graph c4Trigger).nodes.lookup (brokerKey "br") = some 2 ∧
    (AddChannel c4Graph c4Channel).nodes.lookup (channelKey "chan")
      = some 3 := by
  have h := C4_amended_guarded_reuse c4Graph none c2ServiceOk c4Trigger
    c4Channel 0 1 2 { env := [] } [] (by decide) (by decide) (by decide)
    (by decide) (by decide)
  exact ⟨h.1, h.2.1, h.2.2.1, h.2.2.2⟩

/-- C10: in every reachable builder state, every value stored in the address
index is a key with a registered node; consequently the secondary fallback of
`AddSource` — a second "UnknownSink" node when the indexed key has no node —
is unreachable: its guard is false for every source, and on an address-index
hit `AddSource` allocates exactly one node (the source node itself). -/
theorem C10_addr_index_invariant {g : Graph} (h : Reachable g) :
    (∀ p ∈ g.dnsToKey, ((g.nodes.lookup p.2)).isSome) ∧
    (∀ s : SourceType, sourceFallbackTaken g s = false) ∧
    (∀ s : SourceType, ∀ bk, g.dnsToKey.lookup (sinkDNS s) = some bk →
      (AddSource g s).fresh = g.fresh + 1) := by
  have hi := reachable_inv h
  refine ⟨hi, ?_, ?_⟩
  · intro s
    unfold sourceFallbackTaken
    by_cases hs : sinkDNS s = ""
    · simp [hs]
    · simp only [if_neg hs]
      cases hd : g.dnsToKey.lookup (sinkDNS s) with
      | none => rfl
      | some bk =>
        have hsome := hi _ (lookup_mem hd)
        rcases Option.isSome_iff_exists.1 hsome with ⟨v, hv⟩
        simp [hv]
  · intro s bk hd
    by_cases hs : sinkDNS s = ""
    · exact (AddSource_fields_nosink g s hs).1
    · have hsome := hi _ (lookup_mem hd)
      have hsome2 : ((mapSet g.nodes
          (gvkKey (apiVersionGVK s.apiVersion s.kind) s.name)
          g.fresh).lookup bk).isSome :=
        lookup_isSome_mapSet _ _ _ _ hsome
      rcases Option.isSome_iff_exists.1 hsome2 with ⟨bn, hbn⟩
      exact (AddSource_fields_hit g s bk bn hs hd hbn).1

/-- A source whose sink is the address of `c4Channel` without the trailing
slash. -/
def c10Source : SourceType :=
  { name := "src", kind := "ContainerSource",
    apiVersion := "sources.knative.dev/v1alpha1",
    statusSinkURI := some "http://chan.default.svc.cluster.local" }

theorem C10_witness :
    sourceFallbackTaken (applyOp (New "default") (Op.channel c4Channel))
        c10Source = false ∧
    (AddSource (applyOp (New "default") (Op.channel c4Channel))
        c10Source).fresh
      = (applyOp (New "default") (Op.channel c4Channel)).fresh + 1 := by
  have h := C10_addr_index_invariant
    (Reachable.step (Reachable.new "default") (Op.channel c4Channel))
  refine ⟨h.2.1 c10Source, h.2.2 c10Source (channelKey "chan") ?_⟩
  decide

/-- C6: a trigger naming a broker with no registered node creates one
"UnknownBroker <name>" placeholder node and registers it under the broker key,
and a second trigger naming the same missing broker finds and reuses exactly
that placeholder: the broker key still maps to the first call's placeholder
id, and among all node allocations made since, the placeholder is the only one
carrying the "UnknownBroker <name>" name (the side conditions only rule out a
subscriber whose own label is spelled like the placeholder's). -/
theorem C6_unknown_broker_placeholder (g : Graph) (t1 t2 : Trigger)
    (hw : WF g)
    (hb : t2.broker = t1.broker)
    (hmiss : g.nodes.lookup (brokerKey t1.broker) = none)
    (hl1 : (subscriberKeyLabel t1.subscriber).2
      ≠ "UnknownBroker " ++ t1.broker)
    (hl2 : (subscriberKeyLabel t2.subscriber).2
      ≠ "UnknownBroker " ++ t1.broker) :
    (AddTrigger g t1).nodes.lookup (brokerKey t1.broker) = some g.fresh ∧
    (g.fresh, "UnknownBroker " ++ t1.broker) ∈ (AddTrigger g t1).nodeNames ∧
    (AddTrigger (AddTrigger g t1) t2).nodes.lookup (brokerKey t1.broker)
      = some g.fresh ∧
    (∀ p ∈ (AddTrigger (AddTrigger g t1) t2).nodeNames,
      p.2 = "UnknownBroker " ++ t1.broker → g.fresh ≤ p.1 →
      p.1 = g.fresh) := by
  obtain ⟨gm1, a1, a2, a3, a4, a5, a6, a7, a8, a9, a10, am, aeq⟩ :=
    AddTrigger_proj_miss g t1 hmiss
  obtain ⟨q1f, q1e, q1sgN, q1sub, q1dns, q1sgF, q1tops, q1ec, q1re, q1pres,
          q1presS⟩ := gocs_frame gm1 t1.subscriber
  have hne1 : brokerKey t1.broker ≠ triggerKey t1.name :=
    fun hcon => triggerKey_ne_brokerKey t1.name t1.broker hcon.symm
  have h1 : (AddTrigger g t1).nodes.lookup (brokerKey t1.broker)
      = some g.fresh := by
    rw [aeq]
    show ((getOrCreateSubscriber gm1 t1.subscriber).2.nodes).lookup
      (brokerKey t1.broker) = some g.fresh
    apply q1pres
    rw [a3, lookup_mapSet_ne _ _ _ _ hne1]
    exact lookup_mapSet_self _ _ _
  have h2 : (g.fresh, "UnknownBroker " ++ t1.broker)
      ∈ (AddTrigger g t1).nodeNames := by
    rw [aeq]
    show (g.fresh, "UnknownBroker " ++ t1.broker)
      ∈ (getOrCreateSubscriber gm1 t1.subscriber).2.nodeNames
    rcases gocs_nodeNames gm1 t1.subscriber with hnn | hnn <;>
      rw [hnn, a2] <;> simp
  have hbk2 : (AddTrigger g t1).nodes.lookup (brokerKey t2.broker)
      = some g.fresh := by
    rw [hb]
    exact h1
  obtain ⟨gm2, c1, c2, c3, c4, c5, c6, c7, c8, c9, c10, cm, ceq⟩ :=
    AddTrigger_proj_hit (AddTrigger g t1) t2 g.fresh hbk2
  obtain ⟨q2f, q2e, q2sgN, q2sub, q2dns, q2sgF, q2tops, q2ec, q2re, q2pres,
          q2presS⟩ := gocs_frame gm2 t2.subscriber
  have hne2 : brokerKey t1.broker ≠ triggerKey t2.name :=
    fun hcon => triggerKey_ne_brokerKey t2.name t1.broker hcon.symm
  have h3 : (AddTrigger (AddTrigger g t1) t2).nodes.lookup
      (brokerKey t1.broker) = some g.fresh := by
    rw [ceq]
    show ((getOrCreateSubscriber gm2 t2.subscriber).2.nodes).lookup
      (brokerKey t1.broker) = some g.fresh
    apply q2pres
    rw [c3]
    rw [lookup_mapSet_ne _ _ _ _ hne2]
    exact h1
  refine ⟨h1, h2, h3, ?_⟩
  intro p hp hname hge
  rw [ceq] at hp
  have hp2 : p ∈ (getOrCreateSubscriber gm2 t2.subscriber).2.nodeNames := hp
  have hstep : p ∈ gm2.nodeNames := by
    rcases gocs_nodeNames gm2 t2.subscriber with hnn | hnn
    · rwa [hnn] at hp2
    · rw [hnn] at hp2
      rcases List.mem_cons.1 hp2 with hph | hp3
      · exfalso
        apply hl2
        rw [← hb] at hname ⊢
        rw [hph] at hname
        exact hname
      · exact hp3
  rw [c2] at hstep
  rcases List.mem_cons.1 hstep with hph | hstep2
  · exfalso
    apply trigger_name_ne_unknown_broker t2.name t1.broker
    rw [hph] at hname
    exact hname
  · rw [aeq] at hstep2
    have hp4 : p ∈ (getOrCreateSubscriber gm1 t1.subscriber).2.nodeNames :=
      hstep2
    have hstep3 : p ∈ gm1.nodeNames := by
      rcases gocs_nodeNames gm1 t1.subscriber with hnn | hnn
      · rwa [hnn] at hp4
      · rw [hnn] at hp4
        rcases List.mem_cons.1 hp4 with hph | hp5
        · exfalso
          apply hl1
          rw [hph] at hname
          exact hname
        · exact hp5
    rw [a2] at hstep3
    rcases List.mem_cons.1 hstep3 with hph | hstep4
    · exfalso
      apply trigger_name_ne_unknown_broker t1.name t1.broker
      rw [hph] at hname
      exact hname
    · rcases List.mem_cons.1 hstep4 with hph | hstep5
      · rw [hph]
      · exfalso
        have := hw.1 p hstep5
        omega

/-- Triggers used to witness C6. -/
def c6Trigger1 : Trigger :=
  { name := "t1", broker := "missing", filter := none, subscriber := none }

/-- Second trigger naming the same missing broker. -/
def c6Trigger2 : Trigger :=
  { name := "t2", broker := "missing", filter := none, subscriber := none }

theorem C6_witness :
    (AddTrigger (New "default") c6Trigger1).nodes.lookup
        (brokerKey "missing") = some 0 ∧
    (0, "UnknownBroker missing")
        ∈ (AddTrigger (New "default") c6Trigger1).nodeNames ∧
    (AddTrigger (AddTrigger (New "default") c6Trigger1)
        c6Trigger2).nodes.lookup (brokerKey "missing") = some 0 ∧
    (∀ p ∈ (AddTrigger (AddTrigger (New "default") c6Trigger1)
        c6Trigger2).nodeNames,
      p.2 = "UnknownBroker missing" → 0 ≤ p.1 → p.1 = 0) := by
  have h := C6_unknown_broker_placeholder (New "default") c6Trigger1
    c6Trigger2 (New_wf "default") (by decide) (by decide) (by decide)
    (by decide)
  exact ⟨h.1, h.2.1, h.2.2.1, h.2.2.2⟩

/-- C7: trailing-slash normalization holds on both sides of the address
index.  Adding a channel registers the slash-trimmed address, and a source
whose status sink URI equals the channel's address up to one trailing slash
resolves through the address index to the very node the channel created: the
sink edge runs from the new source node to the channel node.  (The side
condition keeps the source's own canonical key distinct from the channel's —
by the spec's identity model they are different resources.) -/
theorem C7_trailing_slash_both_sides (g : Graph) (c : Channel)
    (s : SourceType) (u : String)
    (hu : s.statusSinkURI = some u)
    (heq : trimSuffix u "/" = trimSuffix c.statusAddress "/")
    (hne : trimSuffix c.statusAddress "/" ≠ "")
    (hkey : gvkKey (apiVersionGVK s.apiVersion s.kind) s.name
      ≠ channelKey c.name) :
    (AddChannel g c).nodes.lookup (channelKey c.name) = some g.fresh ∧
    (g.fresh, "Channel " ++ c.name) ∈ (AddChannel g c).nodeNames ∧
    ∃ e : Edge,
      (AddSource (AddChannel g c) s).edges = (AddChannel g c).edges ++ [e] ∧
      e.src = some (AddChannel g c).fresh ∧
      e.dst = some g.fresh := by
  obtain ⟨f1, f2, f3, f4, f5, f6, f7, f8, f9, f10, f11, f12⟩ :=
    AddChannel_fields g c
  have hsink : sinkDNS s = trimSuffix u "/" := by
    unfold sinkDNS
    rw [hu]
  have hs : sinkDNS s ≠ "" := by
    rw [hsink, heq]
    exact hne
  have hlook : (AddChannel g c).nodes.lookup (channelKey c.name)
      = some g.fresh := by
    rw [f4]
    exact lookup_mapSet_self _ _ _
  have hdns : (AddChannel g c).dnsToKey.lookup (sinkDNS s)
      = some (channelKey c.name) := by
    rw [f6, hsink, heq]
    exact lookup_mapSet_self _ _ _
  have hbn : (mapSet (AddChannel g c).nodes
      (gvkKey (apiVersionGVK s.apiVersion s.kind) s.name)
      (AddChannel g c).fresh).lookup (channelKey c.name) = some g.fresh := by
    rw [lookup_mapSet_ne _ _ _ _ (fun hcon => hkey hcon.symm)]
    exact hlook
  obtain ⟨g1, g2, g3, g4, g5, g6, g7, g8, g9, g10, g11, g12⟩ :=
    AddSource_fields_hit (AddChannel g c) s (channelKey c.name) g.fresh hs
      hdns hbn
  refine ⟨hlook, ?_, ?_⟩
  · rw [f3]
    simp
  · refine ⟨_, g8, rfl, rfl⟩

/-- The source used to witness C7. -/
def c7Source : SourceType :=
  { name := "src", kind := "CronJobSource",
    apiVersion := "sources.knative.dev/v1alpha1",
    statusSinkURI := some "http://chan.default.svc.cluster.local" }

theorem C7_witness :
    (AddChannel (New "default") c4Channel).nodes.lookup
        (channelKey "chan") = some 0 ∧
    (0, "Channel chan") ∈ (AddChannel (New "default") c4Channel).nodeNames ∧
    ∃ e : Edge,
      (AddSource (AddChannel (New "default") c4Channel) c7Source).edges
        = (AddChannel (New "default") c4Channel).edges ++ [e] ∧
      e.src = some (AddChannel (New "default") c4Channel).fresh ∧
      e.dst = some 0 := by
  have h := C7_trailing_slash_both_sides (New "default") c4Channel c7Source
    "http://chan.default.svc.cluster.local" (by decide) (by decide)
    (by decide) (by decide)
  exact ⟨h.1, h.2.1, h.2.2⟩

theorem AddSubscription_doc (g : Graph) (s : Subscription) :
    ∃ gmid : Graph,
      gmid.fresh = g.fresh + 1 ∧
      gmid.nodes = mapSet g.nodes (subscriptionKey s.name) g.fresh ∧
      (match g.subgraphs.lookup (gvkKey (refGVK s.channel) s.channel.name)
       with
       | some sgid =>
         gmid.topNodes = g.topNodes ∧
         gmid.sgNodes = g.sgNodes ++ [(sgid, g.fresh)]
       | none =>
         gmid.topNodes = g.topNodes ++ [g.fresh] ∧
         gmid.sgNodes = g.sgNodes) ∧
      (AddSubscription g s).sgNodes = gmid.sgNodes ∧
      ((AddSubscription g s).topNodes = gmid.topNodes ∨
       (AddSubscription g s).topNodes = gmid.topNodes ++ [gmid.fresh]) ∧
      (∀ k v, gmid.nodes.lookup k = some v →
        (AddSubscription g s).nodes.lookup k = some v) := by
  obtain ⟨gmid, m1, m2, m3, m4, m5, m6, m7, m8, m9, m10, mm, meq⟩ :=
    AddSubscription_proj g s
  obtain ⟨qf1, qe, qsgN, qsub, qdns, qsgF, qtops, qec, qre, qpres,
    qpresS⟩ := gocs_frame gmid s.subscriber
  refine ⟨gmid, m1, m3, mm, ?_, ?_, ?_⟩
  · rw [meq]
    simp only
    rcases hgr : getOrCreateReply
        (addEdge (getOrCreateSubscriber gmid s.subscriber).2
          { src := some g.fresh,
            dst := some (getOrCreateSubscriber gmid s.subscriber).1,
            attrs := [("dir", "both")], colorIdx := none }) s.reply
      with ⟨o, g5⟩
    obtain ⟨r1, r2, r3, r4, r5, r6, r7, r8, r9, r10, r11, r12, r13⟩ :=
      gorep_frame
        (addEdge (getOrCreateSubscriber gmid s.subscriber).2
          { src := some g.fresh,
            dst := some (getOrCreateSubscriber gmid s.subscriber).1,
            attrs := [("dir", "both")], colorIdx := none }) s.reply
    rw [hgr] at r5
    cases o with
    | none =>
      show g5.sgNodes = gmid.sgNodes
      rw [r5]
      show (getOrCreateSubscriber gmid s.subscriber).2.sgNodes = gmid.sgNodes
      exact qsgN
    | some rep =>
      obtain ⟨n1, n2, n3, n4, n5, n6, n7, n8, n9, n10, n11⟩ :=
        newEdgeColor_frame g5
      show (newEdgeColor g5).2.sgNodes = gmid.sgNodes
      rw [n7, r5]
      exact qsgN
  · rw [meq]
    simp only
    rcases hgr : getOrCreateReply
        (addEdge (getOrCreateSubscriber gmid s.subscriber).2
          { src := some g.fresh,
            dst := some (getOrCreateSubscriber gmid s.subscriber).1,
            attrs := [("dir", "both")], colorIdx := none }) s.reply
      with ⟨o, g5⟩
    obtain ⟨r1, r2, r3, r4, r5, r6, r7, r8, r9, r10, r11, r12, r13⟩ :=
      gorep_frame
        (addEdge (getOrCreateSubscriber gmid s.subscriber).2
          { src := some g.fresh,
            dst := some (getOrCreateSubscriber gmid s.subscriber).1,
            attrs := [("dir", "both")], colorIdx := none }) s.reply
    rw [hgr] at r4
    cases o with
    | none =>
      show g5.topNodes = gmid.topNodes ∨
        g5.topNodes = gmid.topNodes ++ [gmid.fresh]
      rw [r4]
      show (getOrCreateSubscriber gmid s.subscriber).2.topNodes
          = gmid.topNodes ∨
        (getOrCreateSubscriber gmid s.subscriber).2.topNodes
          = gmid.topNodes ++ [gmid.fresh]
      exact gocs_topNodes gmid s.subscriber
    | some rep =>
      obtain ⟨n1, n2, n3, n4, n5, n6, n7, n8, n9, n10, n11⟩ :=
        newEdgeColor_frame g5
      show (newEdgeColor g5).2.topNodes = gmid.topNodes ∨
        (newEdgeColor g5).2.topNodes = gmid.topNodes ++ [gmid.fresh]
      rw [n6, r4]
      exact gocs_topNodes gmid s.subscriber
  · intro k v hk
    rw [meq]
    simp only
    rcases hgr : getOrCreateReply
        (addEdge (getOrCreateSubscriber gmid s.subscriber).2
          { src := some g.fresh,
            dst := some (getOrCreateSubscriber gmid s.subscriber).1,
            attrs := [("dir", "both")], colorIdx := none }) s.reply
      with ⟨o, g5⟩
    obtain ⟨r1, r2, r3, r4, r5, r6, r7, r8, r9, r10, r11, r12, r13⟩ :=
      gorep_frame
        (addEdge (getOrCreateSubscriber gmid s.subscriber).2
          { src := some g.fresh,
            dst := some (getOrCreateSubscriber gmid s.subscriber).1,
            attrs := [("dir", "both")], colorIdx := none }) s.reply
    rw [hgr] at r1
    cases o with
    | none =>
      show g5.nodes.lookup k = some v
      rw [r1]
      exact qpres k v hk
    | some rep =>
      obtain ⟨n1, n2, n3, n4, n5, n6, n7, n8, n9, n10, n11⟩ :=
        newEdgeColor_frame g5
      show ((newEdgeColor g5).2.nodes).lookup k = some v
      rw [n3, r1]
      exact qpres k v hk

/-- C9: a subscription is placed inside a cluster exactly when a subgraph is
registered under the key derived from its declared channel reference
(group/version/kind/name), and at top level otherwise; the subscription node
is registered under the subscription key either way.  In particular, a
subscription whose channel reference carries the eventing group/version and
kind "Channel" lands inside the cluster that a prior `AddChannel` of that
name created. -/
theorem C9_subscription_cluster_placement (g : Graph) (s : Subscription)
    (hw : WF g) :
    (match g.subgraphs.lookup (gvkKey (refGVK s.channel) s.channel.name)
     with
     | some sgid =>
       (sgid, g.fresh) ∈ (AddSubscription g s).sgNodes ∧
       g.fresh ∉ (AddSubscription g s).topNodes
     | none =>
       g.fresh ∈ (AddSubscription g s).topNodes ∧
       (∀ p ∈ (AddSubscription g s).sgNodes, p.2 ≠ g.fresh)) ∧
    (AddSubscription g s).nodes.lookup (subscriptionKey s.name)
      = some g.fresh ∧
    (∀ c : Channel, s.channel.apiVersion = "eventing.knative.dev/v1alpha1" →
      s.channel.kind = "Channel" → s.channel.name = c.name →
      ∃ sgid,
        (AddChannel g c).subgraphs.lookup (channelKey c.name) = some sgid ∧
        (sgid, (AddChannel g c).fresh)
          ∈ (AddSubscription (AddChannel g c) s).sgNodes) := by
  obtain ⟨gmid, d1, d2, dm, dsg, dtop, dpres⟩ := AddSubscription_doc g s
  refine ⟨?_, ?_, ?_⟩
  · cases hsg : g.subgraphs.lookup
        (gvkKey (refGVK s.channel) s.channel.name) with
    | some sgid =>
      simp only [hsg] at dm
      refine ⟨?_, ?_⟩
      · rw [dsg, dm.2]
        simp
      · intro hmem
        rcases dtop with ht | ht <;> rw [ht, dm.1] at hmem
        · have := hw.2.1 _ hmem
          omega
        · rcases List.mem_append.1 hmem with hmem | hmem
          · have := hw.2.1 _ hmem
            omega
          · simp at hmem
            omega
    | none =>
      simp only [hsg] at dm
      refine ⟨?_, ?_⟩
      · rcases dtop with ht | ht <;> rw [ht, dm.1] <;> simp
      · intro p hp
        rw [dsg, dm.2] at hp
        have := hw.2.2.1 p hp
        omega
  · apply dpres
    rw [d2]
    exact lookup_mapSet_self _ _ _
  · intro c hav hkind hname
    obtain ⟨f1, f2, f3, f4, f5, f6, f7, f8, f9, f10, f11, f12⟩ :=
      AddChannel_fields g c
    have hck : gvkKey (refGVK s.channel) s.channel.name
        = channelKey c.name := by
      unfold refGVK
      rw [hav, hkind, hname]
      exact gvkKey_channel_eq c.name
    obtain ⟨gmid2, e1, e2, em, esg, etop, epres⟩ :=
      AddSubscription_doc (AddChannel g c) s
    have hlook : (AddChannel g c).subgraphs.lookup
        (gvkKey (refGVK s.channel) s.channel.name) = some g.sgFresh := by
      rw [hck, f5]
      exact lookup_mapSet_self _ _ _
    refine ⟨g.sgFresh, ?_, ?_⟩
    · rw [f5]
      exact lookup_mapSet_self _ _ _
    · simp only [hlook] at em
      rw [esg, em.2]
      simp

/-- The subscription used to witness C9. -/
def c9Subscription : Subscription :=
  { name := "sub",
    channel := { apiVersion := "eventing.knative.dev/v1alpha1",
                 kind := "Channel", name := "chan" },
    subscriber := none, reply := none }

theorem C9_witness :
    0 ∈ (AddSubscription (New "default") c9Subscription).topNodes ∧
    (0, 1) ∈ (AddSubscription (AddChannel (New "default") c4Channel)
        c9Subscription).sgNodes := by
  have h := C9_subscription_cluster_placement (New "default") c9Subscription
    (New_wf "default")
  have h1 : 0 ∈ (AddSubscription (New "default") c9Subscription).topNodes ∧
      (∀ p ∈ (AddSubscription (New "default") c9Subscription).sgNodes,
        p.2 ≠ 0) := h.1
  obtain ⟨sgid, hs1, hs2⟩ := h.2.2 c4Channel rfl rfl rfl
  have hval : (AddChannel (New "default") c4Channel).subgraphs.lookup
      (channelKey "chan") = some 0 := by decide
  rw [show channelKey c4Channel.name = channelKey "chan" from rfl] at hs1
  rw [hval] at hs1
  have hsgid : sgid = 0 := (Option.some.inj hs1).symm
  subst hsgid
  exact ⟨h1.1, hs2⟩

theorem gocs_lookup_other (g : Graph) (sub : Option SubscriberSpec)
    (k : String) (hk : k ≠ (subscriberKeyLabel sub).1) :
    ((getOrCreateSubscriber g sub).2.nodes).lookup k = g.nodes.lookup k := by
  cases h : g.nodes.lookup (subscriberKeyLabel sub).1 with
  | some id => rw [gocs_hit h]
  | none =>
    obtain ⟨_, _, _, h4, _⟩ := gocs_miss_fields h
    rw [h4]
    exact lookup_mapSet_ne _ _ _ _ hk

/-- The subscription of the C1 counterexample: its subscriber is a typed
reference whose reference key coincides with the reply channel's channel key
(same group/version/kind/name — by the spec's identity model it denotes the
same channel), so the subscriber resolution registers a node under the
channel key before reply resolution runs. -/
def c1Subscription : Subscription :=
  { name := "sub",
    channel := { apiVersion := "messaging.knative.dev/v1alpha1",
                 kind := "InMemoryChannel", name := "w" },
    subscriber := some
      { uri := none,
        ref := some { apiVersion := "eventing.knative.dev/v1alpha1",
                      kind := "Channel", name := "mychan" } },
    reply := some
      { channel := some { apiVersion := "eventing.knative.dev/v1alpha1",
                          kind := "Channel", name := "mychan" } } }

/-- C1 counterexample: no node is registered under the reply channel's key
when `AddSubscription` is called, yet the call adds a reply edge (the second,
"dir = forward" edge): the subscription's own subscriber resolution registered
a node under that channel key before `getOrCreateReply` ran. -/
theorem C1_cex_reply_edge_despite_unregistered_channel :
    (New "default").nodes.lookup (channelKey "mychan") = none ∧
    ((AddSubscription (New "default") c1Subscription).edges.map
      (fun e => e.attrs)) = [[("dir", "both")], [("dir", "forward")]] := by
  decide

/-- C1 (amended): if no node is registered under the reply channel's key when
reply resolution runs — in particular if none was registered at call time and
the subscription's subscriber resolution does not itself register that channel
key — then `getOrCreateReply` returns no node, `AddSubscription` adds only the
subscriber edge (no reply edge) and does not abort, and the "Unknown Channel"
placeholder it constructs is recorded as an allocation but never connected to
the graph: it is not at top level, in any cluster, in the node index, or an
endpoint of any edge. -/
theorem C1_amended_reply_silently_dropped (g : Graph) (s : Subscription)
    (r : ReplyStrategy) (ch : ObjectReference)
    (hw : WF g) (hr : s.reply = some r) (hc : r.channel = some ch)
    (hck : g.nodes.lookup (channelKey ch.name) = none)
    (hsub : (subscriberKeyLabel s.subscriber).1 ≠ channelKey ch.name) :
    (∀ g0 : Graph, g0.nodes.lookup (channelKey ch.name) = none →
      (getOrCreateReply g0 (some r)).1 = none) ∧
    (∃ subId, (AddSubscription g s).edges
      = g.edges ++ [{ src := some g.fresh, dst := some subId,
                      attrs := [("dir", "both")], colorIdx := none }]) ∧
    (∃ pid, g.fresh ≤ pid ∧
      (pid, "Unknown Channel " ++ ch.name)
        ∈ (AddSubscription g s).nodeNames ∧
      ¬ idConnected (AddSubscription g s) pid) := by
  have hreply0 : ∀ g0 : Graph,
      g0.nodes.lookup (channelKey ch.name) = none →
      (getOrCreateReply g0 (some r)).1 = none := by
    intro g0 h0
    rw [gorep_miss hc h0]
  obtain ⟨b1, b2, b3, b4, b5⟩ := hw
  obtain ⟨gmid, m1, m2, m3, m4, m5, m6, m7, m8, m9, m10, mm, meq⟩ :=
    AddSubscription_proj g s
  obtain ⟨qf1, qe, qsgN, qsub, qdns, qsgF, qtops, qec, qre, qpres, qpresS⟩ :=
    gocs_frame gmid s.subscriber
  have hwmid : WF gmid := by
    unfold WF Below
    rw [m1, m2, m3]
    have hcore :
        (∀ p ∈ (g.fresh, "Subscription " ++ s.name) :: g.nodeNames,
          p.1 < g.fresh + 1) ∧
        (∀ p ∈ mapSet g.nodes (subscriptionKey s.name) g.fresh,
          p.2 < g.fresh + 1) ∧
        (∀ e ∈ g.edges,
          (∀ i, e.src = some i → i < g.fresh + 1) ∧
          (∀ i, e.dst = some i → i < g.fresh + 1)) := by
      refine ⟨List.forall_mem_cons.2
        ⟨by omega, fun p hp => by have := b1 p hp; omega⟩, ?_, ?_⟩
      · intro p hp
        rcases mem_mapSet hp with hp | hp
        · simp [hp]
        · have := b4 p hp
          omega
      · intro e he
        exact ⟨fun i hi => by have := (b5 e he).1 i hi; omega,
               fun i hi => by have := (b5 e he).2 i hi; omega⟩
    cases hsg : g.subgraphs.lookup (gvkKey (refGVK s.channel) s.channel.name)
      with
    | none =>
      simp only [hsg] at mm
      rw [mm.1, mm.2, m6]
      refine ⟨hcore.1, ?_, fun p hp => by have := b3 p hp; omega,
              hcore.2.1, hcore.2.2⟩
      refine List.forall_mem_append.2
        ⟨fun i hi => by have := b2 i hi; omega, ?_⟩
      intro i hi
      simp at hi
      omega
    | some sgid =>
      simp only [hsg] at mm
      rw [mm.1, mm.2, m6]
      refine ⟨hcore.1, fun i hi => by have := b2 i hi; omega, ?_,
              hcore.2.1, hcore.2.2⟩
      refine List.forall_mem_append.2
        ⟨fun p hp => by have := b3 p hp; omega, ?_⟩
      intro p hp
      simp at hp
      simp [hp]
  obtain ⟨hwq, hq1⟩ := gocs_wf s.subscriber hwmid
  have hwf4 : WF (addEdge (getOrCreateSubscriber gmid s.subscriber).2
      { src := some g.fresh,
        dst := some (getOrCreateSubscriber gmid s.subscriber).1,
        attrs := [("dir", "both")], colorIdx := none }) := by
    apply below_addEdge hwq
    · intro i hi
      simp at hi
      rw [m1] at qf1
      omega
    · intro i hi
      simp at hi
      subst hi
      exact hq1
  have hck4 : ((addEdge (getOrCreateSubscriber gmid s.subscriber).2
      { src := some g.fresh,
        dst := some (getOrCreateSubscriber gmid s.subscriber).1,
        attrs := [("dir", "both")], colorIdx := none }).nodes).lookup
        (channelKey ch.name) = none := by
    show ((getOrCreateSubscriber gmid s.subscriber).2.nodes).lookup
      (channelKey ch.name) = none
    rw [gocs_lookup_other gmid s.subscriber _ (fun h => hsub h.symm)]
    rw [m3]
    rw [lookup_mapSet_ne _ _ _ _
      (subscriptionKey_ne_channelKey s.name ch.name).symm]
    exact hck
  have hrep := @gorep_miss (addEdge
      (getOrCreateSubscriber gmid s.subscriber).2
      { src := some g.fresh,
        dst := some (getOrCreateSubscriber gmid s.subscriber).1,
        attrs := [("dir", "both")], colorIdx := none }) _ _ hc hck4
  have hfin : AddSubscription g s =
      { (addEdge (getOrCreateSubscriber gmid s.subscriber).2
          { src := some g.fresh,
            dst := some (getOrCreateSubscriber gmid s.subscriber).1,
            attrs := [("dir", "both")], colorIdx := none }) with
        fresh := (addEdge (getOrCreateSubscriber gmid s.subscriber).2
          { src := some g.fresh,
            dst := some (getOrCreateSubscriber gmid s.subscriber).1,
            attrs := [("dir", "both")], colorIdx := none }).fresh + 1,
        nodeNames := ((addEdge (getOrCreateSubscriber gmid s.subscriber).2
          { src := some g.fresh,
            dst := some (getOrCreateSubscriber gmid s.subscriber).1,
            attrs := [("dir", "both")], colorIdx := none }).fresh,
          "Unknown Channel " ++ ch.name)
          :: (addEdge (getOrCreateSubscriber gmid s.subscriber).2
          { src := some g.fresh,
            dst := some (getOrCreateSubscriber gmid s.subscriber).1,
            attrs := [("dir", "both")], colorIdx := none }).nodeNames } := by
    rw [meq]
    simp only
    rw [hr, hrep]
  refine ⟨hreply0, ?_, ?_⟩
  · refine ⟨(getOrCreateSubscriber gmid s.subscriber).1, ?_⟩
    rw [hfin]
    show ((addEdge (getOrCreateSubscriber gmid s.subscriber).2
      { src := some g.fresh,
        dst := some (getOrCreateSubscriber gmid s.subscriber).1,
        attrs := [("dir", "both")], colorIdx := none }).edges) = _
    show ((getOrCreateSubscriber gmid s.subscriber).2.edges ++ _) = _
    rw [qe, m6]
  · refine ⟨(addEdge (getOrCreateSubscriber gmid s.subscriber).2
      { src := some g.fresh,
        dst := some (getOrCreateSubscriber gmid s.subscriber).1,
        attrs := [("dir", "both")], colorIdx := none }).fresh, ?_, ?_, ?_⟩
    · show g.fresh ≤ (getOrCreateSubscriber gmid s.subscriber).2.fresh
      rw [m1] at qf1
      omega
    · rw [hfin]
      exact List.mem_cons_self _ _
    · rw [hfin]
      intro hcon
      obtain ⟨w1, w2, w3, w4, w5⟩ := hwf4
      rcases hcon with hcon | hcon | hcon | hcon
      · have := w2 _ hcon
        omega
      · obtain ⟨p, hp, hpe⟩ := hcon
        have := w3 p hp
        omega
      · obtain ⟨p, hp, hpe⟩ := hcon
        have := w4 p hp
        omega
      · obtain ⟨e, he, hpe⟩ := hcon
        rcases hpe with hpe | hpe
        · have := (w5 e he).1 _ hpe
          omega
        · have := (w5 e he).2 _ hpe
          omega

def c1Ch : ObjectReference :=
  { apiVersion := "eventing.knative.dev/v1alpha1", kind := "Channel",
    name := "mychan" }

def c1Reply : ReplyStrategy := { channel := some c1Ch }

/-- Subscription for the C1 amended-claim witness: no subscriber spec, reply
to a channel whose key is unregistered. -/
def c1SubOk : Subscription :=
  { name := "sub2",
    channel := { apiVersion := "messaging.knative.dev/v1alpha1",
                 kind := "InMemoryChannel", name := "w" },
    subscriber := none,
    reply := some c1Reply }

theorem C1_amended_witness :
    ((New "default").nodes.lookup (channelKey "mychan") = none ∧
     (subscriberKeyLabel c1SubOk.subscriber).1 ≠ channelKey "mychan") ∧
    (∃ pid, (New "default").fresh ≤ pid ∧
      (pid, "Unknown Channel " ++ "mychan")
        ∈ (AddSubscription (New "default") c1SubOk).nodeNames ∧
      ¬ idConnected (AddSubscription (New "default") c1SubOk) pid) :=
  ⟨⟨by decide, by decide⟩,
   (C1_amended_reply_silently_dropped (New "default") c1SubOk c1Reply c1Ch
     (New_wf "default") rfl rfl (by decide) (by decide)).2.2⟩

/-- C8: for every sequence with no reply, `AddSequence` allocates one fresh
node per step (all distinct from the Start node, whose id is the calling
state's `fresh`), registers the `j`-th one under the key derived from the
sequence name and the step index `j`, and the plain (attribute-free) edges it
appends are exactly the chain Start→step0, step0→step1, …, in increasing
step-index order. -/
theorem C8_sequence_chain_edges (g : Graph) (sq : Sequence)
    (hr : sq.reply = none) :
    ∃ sids : List Nat,
      sids.length = sq.steps.length ∧
      (∀ x ∈ sids, g.fresh < x) ∧
      (∀ j, ∀ hj : j < sids.length,
        (AddSequence g sq).nodes.lookup (sequenceStepKey sq.name j)
          = some (sids.get ⟨j, hj⟩)) ∧
      ((AddSequence g sq).edges.drop g.edges.length).filter
          (fun e => e.attrs.isEmpty)
        = List.zipWith chainEdge (g.fresh :: sids) sids := by
  obtain ⟨g6, p1, p2, p3, p4, p5, p6, p7, p8, p9, p10, p11, p12, peq⟩ :=
    AddSequence_proj g sq
  obtain ⟨s1, s2, s3, s4, s5, s6, s7, s8, s9, s10, hsids⟩ :=
    addSeqSteps_spec sq.name g.sgFresh sq.steps g6 g.fresh 0
  obtain ⟨sids, hlen, hge, hlook, tail, hedges, hfilter⟩ := hsids
  have hfin : AddSequence g sq = gAddSubgraph
      { (addSeqSteps sq.name g.sgFresh g6 g.fresh 0 sq.steps).2 with
          subgraphs := mapSet
            (addSeqSteps sq.name g.sgFresh g6 g.fresh 0 sq.steps).2.subgraphs
            (sequenceKey sq.name) g.sgFresh }
      g.sgFresh := by
    rw [peq, hr]
  refine ⟨sids, hlen, ?_, ?_, ?_⟩
  · intro x hx
    have hx2 := hge x hx
    rw [p1] at hx2
    omega
  · intro j hj
    have hl := hlook j hj
    rw [hfin]
    show ((addSeqSteps sq.name g.sgFresh g6 g.fresh 0 sq.steps).2.nodes).lookup
      (sequenceStepKey sq.name j) = _
    simpa using hl
  · rw [hfin]
    show (((addSeqSteps sq.name g.sgFresh g6 g.fresh 0 sq.steps).2.edges).drop
      g.edges.length).filter (fun e => e.attrs.isEmpty) = _
    rw [hedges, p10, List.drop_left]
    exact hfilter

/-- Sequence for the C8 witness: three steps, no reply. -/
def c8Sequence : Sequence :=
  { name := "seq",
    statusAddress := "seq.default.svc.cluster.local/",
    steps := [{ uri := some "http://a.example.com/", ref := none },
              { uri := some "http://b.example.com/", ref := none },
              { uri := some "http://c.example.com/", ref := none }],
    reply := none }

theorem C8_witness :
    c8Sequence.reply = none ∧
    (∃ sids : List Nat,
      sids.length = c8Sequence.steps.length ∧
      (∀ x ∈ sids, (New "default").fresh < x) ∧
      (∀ j, ∀ hj : j < sids.length,
        (AddSequence (New "default") c8Sequence).nodes.lookup
          (sequenceStepKey c8Sequence.name j) = some (sids.get ⟨j, hj⟩)) ∧
      ((AddSequence (New "default") c8Sequence).edges.drop
          (New "default").edges.length).filter (fun e => e.attrs.isEmpty)
        = List.zipWith chainEdge ((New "default").fresh :: sids) sids) :=
  ⟨rfl, C8_sequence_chain_edges (New "default") c8Sequence rfl⟩
